import Mathlib

/-!
# quadhybrid-v1: RC pulse capture, stick-to-motor mixing and PWM duty application

Shallow embedding of `src/main.c` (firmware for a PIC16F1825-class controller,
HI-TECH C: `int` and `unsigned int` are 16 bits wide, `unsigned char` 8 bits).

* global variables and the special-function registers the control pipeline
  touches are the fields of `State`;
* every C function is a function `State → State`;
* `for(i=0;i<N;i++)` is `forLoop N`, an array store `a[i] = v` is `arrSet a i v`;
* machine arithmetic is done on `Int`/`Nat` and reduced explicitly to the width of
  the C type (`toU16`, `toI16`, `toU8`); C's `/` on `int` is `Int.tdiv`;
* in the functions named after the C functions the environment acts during
  the busy wait `__delay_ms(40)` only: it is given the list of pin-change
  events the hardware latches during the wait;
* `pulseRead_traced` is `pulseRead` cut at statement boundaries, with pin
  changes allowed in every gap and a log of the accesses of the main code to
  the interrupt-shared variables; `pulseRead_traced_windowOnly` relates the two.

The debug `printf` calls of the main loop are not modelled: they read
`pulseLengthStable` and `pulsePercent` and write nothing but the serial port.
-/

namespace QuadHybrid

/-! ## Machine integers -/

/-- Value of an integer expression stored in an `unsigned int` (16 bits). -/
def toU16 (x : Int) : Nat := (x % 65536).toNat

/-- Value of an integer expression stored in an `int` (16 bits, two's complement). -/
def toI16 (x : Int) : Int := (x + 32768) % 65536 - 32768

/-- Value of an integer expression stored in an 8-bit register or `unsigned char`. -/
def toU8 (x : Int) : Nat := (x % 256).toNat

/-! ## Arrays and loops -/

/-- The array store `a[i] = v`. -/
def arrSet {n : Nat} {α : Type} (a : Fin n → α) (i : Fin n) (v : α) : Fin n → α :=
  fun j => if j = i then v else a j

/-- The loop `for(i=0;i<n;i++) body`: the body runs for `i = 0, 1, …, n-1` in this order. -/
def forLoop {σ : Type} : (n : Nat) → (Fin n → σ → σ) → σ → σ
  | 0, _, s => s
  | n + 1, body, s => body (Fin.last n) (forLoop n (fun i => body i.castSucc) s)

/-! ## Macros (main.c lines 40-42) -/

/-- `#define MIN(A,B)  (((A)<(B)) ? (A) : (B) )` -/
def MIN (A B : Int) : Int := if A < B then A else B

/-- `#define MAX(A,B)  (((A)>(B)) ? (A) : (B) )` -/
def MAX (A B : Int) : Int := if A > B then A else B

/-- `#define PUT_IN_RANGE(V,VMIN,VMAX) MAX(VMIN,MIN(VMAX,V))` -/
def PUT_IN_RANGE (V VMIN VMAX : Int) : Int := MAX VMIN (MIN VMAX V)

/-- `#define PULSE_N 2` -/
abbrev PULSE_N : Nat := 2

/-! ## Program state -/

/-- Global variables of `main.c` and the special-function registers used by the
control pipeline. -/
structure State where
  /-- `volatile unsigned int pulseLength[PULSE_N]`: raw pulse width per channel. -/
  pulseLength : Fin PULSE_N → Nat
  /-- `volatile unsigned int pulseStart[PULSE_N]`: tick of the last rising edge. -/
  pulseStart : Fin PULSE_N → Nat
  /-- `volatile unsigned char pulseOn[PULSE_N]` (declared, never used). -/
  pulseOn : Fin PULSE_N → Nat
  /-- `volatile unsigned char signalAlive`: the liveness flag. -/
  signalAlive : Nat
  /-- `unsigned int pulseLengthStable[PULSE_N]`: stabilized width per channel. -/
  pulseLengthStable : Fin PULSE_N → Nat
  /-- `int pulsePercent[PULSE_N]`. -/
  pulsePercent : Fin PULSE_N → Int
  /-- `int motorDuty[4]`. -/
  motorDuty : Fin 4 → Int
  /-- Global interrupt enable bit. -/
  GIE : Bool
  /-- Interrupt-on-change enable bit. -/
  IOCIE : Bool
  /-- Interrupt-on-change interrupt flag. -/
  IOCIF : Bool
  /-- Change flag of pin RA5 (channel 0). -/
  IOCAF5 : Bool
  /-- Change flag of pin RA4 (channel 1). -/
  IOCAF4 : Bool
  /-- RA5 armed for a rising edge. -/
  IOCAP5 : Bool
  /-- RA5 armed for a falling edge. -/
  IOCAN5 : Bool
  /-- RA4 armed for a rising edge. -/
  IOCAP4 : Bool
  /-- RA4 armed for a falling edge. -/
  IOCAN4 : Bool
  /-- Timer1, the free-running 16-bit tick counter (1 tick = 1 us). -/
  TMR1 : Nat
  /-- Level of pin RC4, the frame selector: high = "+" configuration, low = "X". -/
  RC4 : Bool
  /-- Timer2 period register. -/
  PR2 : Nat
  /-- Duty register of PWM0 (motor 0). -/
  CCPR1L : Nat
  /-- Duty register of PWM1 (motor 1). -/
  CCPR2L : Nat
  /-- Duty register of PWM2 (motor 2). -/
  CCPR3L : Nat
  /-- Duty register of PWM3 (motor 3). -/
  CCPR4L : Nat

/-! ## Interrupt routine (main.c lines 279-315) -/

/-- `void interrupt interrupt_routine(void)` -/
def interrupt_routine (s : State) : State :=
  if s.IOCIF then
    let s : State := { s with signalAlive := 1 }
    let s : State := { s with IOCIF := false }
    -- RA5
    let s : State :=
      if s.IOCAF5 then
        let s : State :=
          if s.IOCAP5 then
            let s : State := { s with pulseStart := arrSet s.pulseStart 0 s.TMR1 }
            { s with IOCAP5 := false, IOCAN5 := true }
          else
            let s : State := { s with
              pulseLength := arrSet s.pulseLength 0 (toU16 ((s.TMR1 : Int) - (s.pulseStart 0 : Int))) }
            { s with IOCAP5 := true, IOCAN5 := false }
        { s with IOCAF5 := false }
      else s
    -- RA4
    let s : State :=
      if s.IOCAF4 then
        let s : State :=
          if s.IOCAP4 then
            let s : State := { s with pulseStart := arrSet s.pulseStart 1 s.TMR1 }
            { s with IOCAP4 := false, IOCAN4 := true }
          else
            let s : State := { s with
              pulseLength := arrSet s.pulseLength 1 (toU16 ((s.TMR1 : Int) - (s.pulseStart 1 : Int))) }
            { s with IOCAP4 := true, IOCAN4 := false }
        { s with IOCAF4 := false }
      else s
    s
  else s

/-! ## Environment during the busy wait -/

/-- One pin-change event latched by the hardware: the Timer1 value at that
moment and which of the two input pins saw its armed edge. -/
structure PinChange where
  /-- Timer1 value when the change is latched. -/
  tick : Nat
  /-- The armed edge occurred on RA5 (channel 0). -/
  ra5 : Bool
  /-- The armed edge occurred on RA4 (channel 1). -/
  ra4 : Bool

/-- The hardware latches a pin change (Timer1 has advanced to `e.tick`, the
change flags and `IOCIF` are raised) and, when interrupts are enabled and
`IOCIF` is raised, the interrupt routine runs. -/
def pinChange (e : PinChange) (s : State) : State :=
  let s : State := { s with
    TMR1 := e.tick % 65536,
    IOCAF5 := s.IOCAF5 || e.ra5,
    IOCAF4 := s.IOCAF4 || e.ra4,
    IOCIF := s.IOCIF || e.ra5 || e.ra4 }
  if s.GIE && s.IOCIE && s.IOCIF then interrupt_routine s else s

/-- `__delay_ms(40)`: the main code only waits; the state changes through the
pin changes `evs` that occur meanwhile, in order. -/
def delay_ms (evs : List PinChange) (s : State) : State :=
  evs.foldl (fun acc e => pinChange e acc) s

/-! ## Pulse sampler (main.c lines 68-95) -/

/-- Lines 84-92, the body of the conversion loop for one channel: the value
stored in `pulsePercent[i]` for the stabilized width `w = pulseLengthStable[i]`.
`tmp` is an `int`, `w - 1000` is computed in `unsigned int`. -/
def percentOfWidth (w : Nat) : Int :=
  if 900 < w ∧ w < 2100 then
    let tmp : Int := toI16 (toU16 ((w : Int) - 1000))
    let tmp : Int := if tmp < 0 then 0 else tmp
    let tmp : Int := if tmp > 1000 then 1000 else tmp
    let tmp : Int := toI16 ((toI16 (tmp + 2)).tdiv 5)
    toI16 (tmp - 100)
  else
    0

/-- Line 72: `signalAlive = 0;` -/
def pulseRead_clear (s : State) : State :=
  { s with signalAlive := 0 }

/-- Lines 75-81: the snapshot of the raw widths, or the centre value when no
edge was seen. -/
def pulseRead_snapshot (s : State) : State :=
  if s.signalAlive ≠ 0 then
    let s : State := { s with GIE := false }
    let s : State := forLoop PULSE_N
      (fun i s => { s with pulseLengthStable := arrSet s.pulseLengthStable i (s.pulseLength i) }) s
    { s with GIE := true }
  else
    forLoop PULSE_N
      (fun i s => { s with pulseLengthStable := arrSet s.pulseLengthStable i 1500 }) s

/-- Lines 83-93: the conversion loop. -/
def pulseRead_convert (s : State) : State :=
  forLoop PULSE_N
    (fun i s => { s with
      pulsePercent := arrSet s.pulsePercent i (percentOfWidth (s.pulseLengthStable i)) }) s

/-- `void pulseRead(void)`; `evs` are the pin changes during the 40 ms wait. -/
def pulseRead (evs : List PinChange) (s : State) : State :=
  pulseRead_convert (pulseRead_snapshot (delay_ms evs (pulseRead_clear s)))

/-! ## Duty applier (main.c lines 103-123) -/

/-- `#define PERCENT2CCPRxL(percent) ((percent  * 16 + 5) / 10 )` on an `int`. -/
def PERCENT2CCPRxL (percent : Int) : Int :=
  toI16 ((toI16 (toI16 (percent * 16) + 5)).tdiv 10)

/-- Lines 108-109, the body of the clamp loop for motor `i`. -/
def motorsApplyDuty_body (i : Fin 4) (s : State) : State :=
  let s : State := { s with motorDuty := arrSet s.motorDuty i (PUT_IN_RANGE (s.motorDuty i) 0 100) }
  if s.motorDuty i < 5 then { s with motorDuty := arrSet s.motorDuty i 0 } else s

/-- Lines 107-110: clamp and dead-zone loop. -/
def motorsApplyDuty_clamp (s : State) : State :=
  forLoop 4 motorsApplyDuty_body s

/-- `void motorsApplyDuty()` -/
def motorsApplyDuty (s : State) : State :=
  let s : State := motorsApplyDuty_clamp s
  let s : State := { s with CCPR1L := toU8 (PERCENT2CCPRxL (s.motorDuty 0)) }
  let s : State := { s with CCPR2L := toU8 (PERCENT2CCPRxL (s.motorDuty 1)) }
  let s : State := { s with CCPR3L := toU8 (PERCENT2CCPRxL (s.motorDuty 2)) }
  let s : State := { s with CCPR4L := toU8 (PERCENT2CCPRxL (s.motorDuty 3)) }
  s

/-! ## Motor mixer and control loop (main.c lines 214-273) -/

/-- Lines 219-260: the mixer. All four duties are zeroed, then the branch
selected by pin RC4 writes the contributions of pitch (`pulsePercent[0]`) and
roll (`pulsePercent[1]`). -/
def mixer (s : State) : State :=
  let s : State := forLoop 4 (fun i s => { s with motorDuty := arrSet s.motorDuty i 0 }) s
  if s.RC4 then
    -- "+" config
    let s : State :=
      if s.pulsePercent 0 ≥ 0 then
        { s with motorDuty := arrSet s.motorDuty 2 (s.pulsePercent 0) }
      else
        { s with motorDuty := arrSet s.motorDuty 0 (toI16 (-s.pulsePercent 0)) }
    let s : State :=
      if s.pulsePercent 1 ≥ 0 then
        { s with motorDuty := arrSet s.motorDuty 3 (s.pulsePercent 1) }
      else
        { s with motorDuty := arrSet s.motorDuty 1 (toI16 (-s.pulsePercent 1)) }
    s
  else
    -- "X" config
    let s : State :=
      if s.pulsePercent 0 ≥ 0 then
        let s : State := { s with motorDuty := arrSet s.motorDuty 2 (s.pulsePercent 0) }
        { s with motorDuty := arrSet s.motorDuty 3 (s.pulsePercent 0) }
      else
        let s : State := { s with motorDuty := arrSet s.motorDuty 0 (toI16 (-s.pulsePercent 0)) }
        { s with motorDuty := arrSet s.motorDuty 1 (toI16 (-s.pulsePercent 0)) }
    let s : State :=
      if s.pulsePercent 1 ≥ 0 then
        let s : State := { s with
          motorDuty := arrSet s.motorDuty 0 (toI16 (s.motorDuty 0 + s.pulsePercent 1)) }
        { s with motorDuty := arrSet s.motorDuty 3 (toI16 (s.motorDuty 3 + s.pulsePercent 1)) }
      else
        let s : State := { s with
          motorDuty := arrSet s.motorDuty 1 (toI16 (s.motorDuty 1 + toI16 (-s.pulsePercent 1))) }
        { s with motorDuty := arrSet s.motorDuty 2 (toI16 (s.motorDuty 2 + toI16 (-s.pulsePercent 1))) }
    s

/-- One pass of the `while(1)` body of `main` (lines 217-263); `evs` are the
pin changes during the sampling window. -/
def mainCycle (evs : List PinChange) (s : State) : State :=
  motorsApplyDuty (mixer (pulseRead evs s))

/-- A concrete state for evaluating the definitions: everything zero, pin
changes armed for the rising edge and interrupts enabled as `main` leaves them
before entering its loop (lines 176-177, 185, 207-209). -/
def State.boot : State where
  pulseLength := fun _ => 0
  pulseStart := fun _ => 0
  pulseOn := fun _ => 0
  signalAlive := 0
  pulseLengthStable := fun _ => 0
  pulsePercent := fun _ => 0
  motorDuty := fun _ => 0
  GIE := true
  IOCIE := true
  IOCIF := false
  IOCAF5 := false
  IOCAF4 := false
  IOCAP5 := true
  IOCAN5 := false
  IOCAP4 := true
  IOCAN4 := false
  TMR1 := 0
  RC4 := true
  PR2 := 159
  CCPR1L := 0
  CCPR2L := 0
  CCPR3L := 0
  CCPR4L := 0


/-- The part of the initialisation in `main` that the control pipeline depends
on: Timer1 reset (line 159), both pins armed for the rising edge (lines
176-177), the PWM period (line 185), the duties zeroed and applied (lines
189-190), interrupt-on-change and global interrupts enabled (lines 207-209).
Oscillator, port, USART and Timer2 set-up are left out. -/
def main_init (s : State) : State :=
  let s : State := { s with TMR1 := 0 }
  let s : State := { s with IOCAP5 := true, IOCAN5 := false }
  let s : State := { s with IOCAP4 := true, IOCAN4 := false }
  let s : State := { s with PR2 := 159 }
  let s : State := forLoop 4 (fun i s => { s with motorDuty := arrSet s.motorDuty i 0 }) s
  let s : State := motorsApplyDuty s
  let s : State := { s with IOCIE := true }
  { s with GIE := true }

/-! ## Interleaving of the main code with the interrupt routine

The main code is cut at statement boundaries. Between two statements the
environment may latch any list of pin changes (`delay_ms`); the interrupt
routine runs for a latched change only while `GIE` and `IOCIE` are set, and a
change latched while `GIE` is clear is served when the main code sets `GIE`
again. Every access of the main code to an interrupt-shared variable or to a
stabilized width is logged together with the value `GIE` has at that moment. -/

/-- A pending interrupt-on-change request is served as soon as interrupts are enabled. -/
def serve (s : State) : State :=
  if s.GIE && s.IOCIE && s.IOCIF then interrupt_routine s else s

/-- Whether the pin change `e`, latched in state `s`, makes the interrupt
routine run with `IOCIF` set (an interrupt-on-change invocation). -/
def irqTaken (e : PinChange) (s : State) : Bool :=
  s.GIE && s.IOCIE && (s.IOCIF || e.ra5 || e.ra4)

/-- Number of interrupt-on-change invocations of the interrupt routine while
the pin changes `evs` occur from state `s`. -/
def irqCount : List PinChange → State → Nat
  | [], _ => 0
  | e :: es, s => (if irqTaken e s then 1 else 0) + irqCount es (pinChange e s)

/-- The variables whose accesses by the main code are logged: the four
interrupt-shared ones (lines 57-60) and the stabilized widths (line 66). -/
inductive Var where
  | pulseLength (i : Fin PULSE_N)
  | pulseStart (i : Fin PULSE_N)
  | pulseOn (i : Fin PULSE_N)
  | signalAlive
  | pulseLengthStable (i : Fin PULSE_N)
  deriving DecidableEq

/-- One logged access of the main code. -/
structure Access where
  /-- The variable read or written. -/
  var : Var
  /-- True for a write, false for a read. -/
  isWrite : Bool
  /-- Value of `GIE` when the access is made. -/
  gie : Bool
  deriving DecidableEq

/-- A state together with the log of the accesses made so far, oldest first. -/
structure Run where
  /-- Current program state. -/
  st : State
  /-- Accesses of the main code so far. -/
  log : List Access

/-- The environment acts between two statements of the main code. -/
def Run.env (evs : List PinChange) (r : Run) : Run :=
  { r with st := delay_ms evs r.st }

/-- The main code accesses variable `v`. -/
def Run.touch (v : Var) (w : Bool) (r : Run) : Run :=
  { r with log := r.log ++ [⟨v, w, r.st.GIE⟩] }

/-- Line 72, `signalAlive = 0;`. -/
def stmt_clear (r : Run) : Run :=
  let r : Run := r.touch Var.signalAlive true
  { r with st := pulseRead_clear r.st }

/-- Line 75, the evaluation of `signalAlive` in `if(signalAlive)`. -/
def stmt_test (r : Run) : Run :=
  r.touch Var.signalAlive false

/-- Line 76, `GIE = 0;`. -/
def stmt_disable (r : Run) : Run :=
  { r with st := { r.st with GIE := false } }

/-- Line 77, `pulseLengthStable[i] = pulseLength[i];`. -/
def stmt_copy (i : Fin PULSE_N) (r : Run) : Run :=
  let r : Run := (r.touch (Var.pulseLength i) false).touch (Var.pulseLengthStable i) true
  { r with st := { r.st with
      pulseLengthStable := arrSet r.st.pulseLengthStable i (r.st.pulseLength i) } }

/-- Line 78, `GIE = 1;`: a request latched meanwhile is served at once. -/
def stmt_enable (r : Run) : Run :=
  { r with st := serve { r.st with GIE := true } }

/-- Line 80, `pulseLengthStable[i] = 1500;`. -/
def stmt_centre (i : Fin PULSE_N) (r : Run) : Run :=
  let r : Run := r.touch (Var.pulseLengthStable i) true
  { r with st := { r.st with pulseLengthStable := arrSet r.st.pulseLengthStable i 1500 } }

/-- Lines 84-92 for channel `i`. -/
def stmt_percent (i : Fin PULSE_N) (r : Run) : Run :=
  let r : Run := r.touch (Var.pulseLengthStable i) false
  { r with st := { r.st with
      pulsePercent := arrSet r.st.pulsePercent i (percentOfWidth (r.st.pulseLengthStable i)) } }

/-- Lines 75-81 interleaved with the environment; `sch k` are the pin changes
in the k-th gap between statements. -/
def traced_snapshot (sch : Nat → List PinChange) (r : Run) : Run :=
  let r : Run := stmt_test r
  if r.st.signalAlive ≠ 0 then
    let r : Run := stmt_disable (r.env (sch 1))
    let r : Run := forLoop PULSE_N (fun i r => stmt_copy i (r.env (sch (2 + i.val)))) r
    stmt_enable (r.env (sch 4))
  else
    forLoop PULSE_N (fun i r => stmt_centre i (r.env (sch (1 + i.val)))) r

/-- Lines 83-93 interleaved with the environment. -/
def traced_convert (sch : Nat → List PinChange) (r : Run) : Run :=
  forLoop PULSE_N (fun i r => stmt_percent i (r.env (sch (5 + i.val)))) r

/-- `pulseRead` interleaved with the environment: `sch 0` are the pin changes
of the 40 ms wait, `sch 1`, `sch 2`, … those of the gaps between the
statements that follow. -/
def pulseRead_traced (sch : Nat → List PinChange) (s : State) : Run :=
  traced_convert sch (traced_snapshot sch ((stmt_clear ⟨s, []⟩).env (sch 0)))

/-- The schedule in which all pin changes fall into the 40 ms wait. -/
def windowOnly (evs : List PinChange) : Nat → List PinChange :=
  fun k => if k = 0 then evs else []

/-! ## Channel view of the pin registers

Channel 0 is pin RA5, channel 1 is pin RA4 (header comment of `main.c`,
lines 5-6 and lines 291, 303). -/

/-- Channel `i` is armed for a rising edge (`IOCAP5` / `IOCAP4`). -/
def armedRising (i : Fin PULSE_N) (s : State) : Bool :=
  if i = 0 then s.IOCAP5 else s.IOCAP4

/-- Channel `i` is armed for a falling edge (`IOCAN5` / `IOCAN4`). -/
def armedFalling (i : Fin PULSE_N) (s : State) : Bool :=
  if i = 0 then s.IOCAN5 else s.IOCAN4

/-- Change flag of channel `i` (`IOCAF5` / `IOCAF4`). -/
def changeFlag (i : Fin PULSE_N) (s : State) : Bool :=
  if i = 0 then s.IOCAF5 else s.IOCAF4

/-- The pin change `e` concerns channel `i`. -/
def changeOn (i : Fin PULSE_N) (e : PinChange) : Bool :=
  if i = 0 then e.ra5 else e.ra4

/-- The state `s` with the change flag of the channel other than `i` cleared. -/
def onlyChannel (i : Fin PULSE_N) (s : State) : State :=
  if i = 0 then { s with IOCAF4 := false } else { s with IOCAF5 := false }

/-- Interrupts are enabled and no change is pending: every pin change is
served at once. -/
def idle (s : State) : Bool :=
  s.GIE && s.IOCIE && !s.IOCIF && !s.IOCAF5 && !s.IOCAF4

/-- A state entering a control cycle with stale raw widths and stale duties,
"X" configuration. -/
def staleScenario : State :=
  { State.boot with
    RC4 := false
    pulseLength := fun _ => 1800
    pulseLengthStable := fun _ => 1800
    pulsePercent := fun _ => 60
    motorDuty := fun _ => 60
    CCPR1L := 96
    CCPR2L := 96
    CCPR3L := 96
    CCPR4L := 96 }

/-- The interrupt routine is entered for a change on channel 0 at tick 100,
the channel being armed for the rising edge. -/
def risingEntry : State :=
  { State.boot with IOCIF := true, IOCAF5 := true, TMR1 := 100 }

/-- The interrupt routine is entered again for channel 0, at tick 1700, after
it has handled `risingEntry`. -/
def fallingEntry : State :=
  { interrupt_routine risingEntry with IOCIF := true, IOCAF5 := true, TMR1 := 1700 }

/-- A sampling window with one complete pulse on channel 0: rising edge at tick
100, falling edge at tick 1600. -/
def windowCentre : List PinChange := [⟨100, true, false⟩, ⟨1600, true, false⟩]

/-- The run right after `GIE = 0` (line 76) in the signal-alive branch. -/
def critEnter (sch : Nat → List PinChange) (r : Run) : Run :=
  stmt_disable ((stmt_test r).env (sch 1))

/-- The run right after the copy of channel 0 (line 77, `i = 0`). -/
def critCopy0 (sch : Nat → List PinChange) (r : Run) : Run :=
  stmt_copy 0 ((critEnter sch r).env (sch 2))

/-- The run right after the copy of channel 1 (line 77, `i = 1`). -/
def critCopy1 (sch : Nat → List PinChange) (r : Run) : Run :=
  stmt_copy 1 ((critCopy0 sch r).env (sch 3))

/-- The run right after `GIE = 1` (line 78). -/
def critLeave (sch : Nat → List PinChange) (r : Run) : Run :=
  stmt_enable ((critCopy1 sch r).env (sch 4))

/-- A schedule with a pin change in every gap: a pulse on channel 0 in the
wait (rising at 100, falling at 1600), then a change of both channels in each
later gap. -/
def busySchedule : Nat → List PinChange :=
  fun k => if k = 0 then windowCentre else [⟨2000 + 100 * k, true, true⟩]

/-- The run of `pulseRead` up to the end of the 40 ms wait, just before the
liveness flag is tested. -/
def windowRun (sch : Nat → List PinChange) (s : State) : Run :=
  (stmt_clear ⟨s, []⟩).env (sch 0)

/-- A sampling window with a 903-tick pulse on channel 0 and a 2500-tick pulse
on channel 1, the timer wrapping meanwhile. -/
def windowEdge : List PinChange :=
  [⟨65000, true, true⟩, ⟨65903, true, false⟩, ⟨1964, false, true⟩]

/-- A state at the mixer's entry: "+" configuration, pitch 60, roll 0, and
leftovers of the previous cycle in `motorDuty`. -/
def plusScenario : State :=
  { State.boot with
    RC4 := true
    pulsePercent := fun j => if j = 0 then 60 else 0
    motorDuty := fun j => if j = 0 then 77 else 100 }

/-- A state at the mixer's entry: "X" configuration, pitch -30, roll 40. -/
def xScenario : State :=
  { State.boot with
    RC4 := false
    pulsePercent := fun j => if j = 0 then -30 else 40
    motorDuty := fun j => if j = 0 then 77 else 100 }

/-- A state at the mixer's entry: "X" configuration, both sticks at full deflection. -/
def xFullScenario : State :=
  { State.boot with
    RC4 := false
    pulsePercent := fun j => if j = 0 then -100 else 100
    motorDuty := fun j => if j = 0 then 77 else 100 }

/-- A state at the applier's entry with mixer outputs 4, 5, 150 and -7. -/
def dutyScenario : State :=
  { State.boot with
    motorDuty := fun j => if j = 0 then 4 else if j = 1 then 5 else if j = 2 then 150 else -7 }

/-! ## Auxiliary facts -/

theorem forLoop_two {σ : Type} (body : Fin 2 → σ → σ) (s : σ) :
    forLoop 2 body s = body 1 (body 0 s) := rfl

theorem forLoop_four {σ : Type} (body : Fin 4 → σ → σ) (s : σ) :
    forLoop 4 body s = body 3 (body 2 (body 1 (body 0 s))) := rfl

theorem toI16_eq_self {x : Int} (h1 : -32768 ≤ x) (h2 : x < 32768) : toI16 x = x := by
  unfold toI16; omega

theorem sub1000_eq (w : Nat) (h1 : 900 < w) (h2 : w < 2100) :
    toI16 (toU16 ((w : Int) - 1000)) = (w : Int) - 1000 := by
  unfold toI16 toU16; omega

/-- Closed form of the conversion on the valid interval. -/
theorem percentOfWidth_valid (w : Nat) (h1 : 900 < w) (h2 : w < 2100) :
    percentOfWidth w = ((max (min (w : Int) 2000) 1000 - 1000 + 2) / 5) - 100 := by
  unfold percentOfWidth
  rw [if_pos ⟨h1, h2⟩, sub1000_eq w h1 h2]
  have key : ∀ t : Int, 0 ≤ t → t ≤ 1000 →
      toI16 (toI16 ((toI16 (t + 2)).tdiv 5) - 100) = (t + 2) / 5 - 100 := by
    intro t h0 h1
    rw [toI16_eq_self (x := t + 2) (by omega) (by omega),
      Int.tdiv_eq_ediv (by omega) (by omega),
      toI16_eq_self (x := (t + 2) / 5) (by omega) (by omega),
      toI16_eq_self (by omega) (by omega)]
  have hc : (if (if (w : Int) - 1000 < 0 then 0 else (w : Int) - 1000) > 1000 then (1000 : Int)
      else (if (w : Int) - 1000 < 0 then 0 else (w : Int) - 1000)) =
      max (min (w : Int) 2000) 1000 - 1000 := by
    split_ifs <;> omega
  simp only [hc]
  exact key _ (by omega) (by omega)

theorem pulseRead_convert_percent (s : State) (i : Fin PULSE_N) :
    (pulseRead_convert s).pulsePercent i = percentOfWidth (s.pulseLengthStable i) := by
  have h : Fin.last 1 = (1 : Fin 2) := rfl
  fin_cases i <;> simp [pulseRead_convert, forLoop, arrSet, h]

theorem pulseRead_convert_stable (s : State) :
    (pulseRead_convert s).pulseLengthStable = s.pulseLengthStable := by
  simp [pulseRead_convert, forLoop]

theorem percent_after_pulseRead (evs : List PinChange) (s : State) (i : Fin PULSE_N) :
    (pulseRead evs s).pulsePercent i = percentOfWidth ((pulseRead evs s).pulseLengthStable i) := by
  unfold pulseRead
  rw [pulseRead_convert_percent, pulseRead_convert_stable]

theorem pulseRead_snapshot_stable (s : State) (i : Fin PULSE_N) :
    (pulseRead_snapshot s).pulseLengthStable i =
      if s.signalAlive ≠ 0 then s.pulseLength i else 1500 := by
  have h : Fin.last 1 = (1 : Fin 2) := rfl
  unfold pulseRead_snapshot
  split_ifs with ha <;> fin_cases i <;> simp [forLoop, arrSet, h]

theorem pulseRead_snapshot_raw (s : State) :
    (pulseRead_snapshot s).pulseLength = s.pulseLength := by
  unfold pulseRead_snapshot
  split_ifs with ha <;> simp [forLoop]

/-- Every 16-bit width is the stabilized width of some run of `pulseRead`. -/
theorem pulseRead_stable_reachable (w : Nat) (i : Fin PULSE_N) :
    ∃ evs s, (pulseRead evs s).pulseLengthStable i = w := by
  refine ⟨[⟨0, true, true⟩], { State.boot with pulseLength := fun _ => w }, ?_⟩
  unfold pulseRead
  rw [pulseRead_convert_stable, pulseRead_snapshot_stable]
  simp [delay_ms, pinChange, pulseRead_clear, interrupt_routine, State.boot]

/-! ## Pulse sampler: conversion of a width to a percent -/

/-- C1: for every stabilized width `w` with `900 < w < 2100` the percent that
`pulseRead` computes for that channel lies in `[-100, 100]`; width 1500 gives 0,
width 1000 gives -100 and width 2000 gives 100. -/
theorem pulseRead_percent_range (evs : List PinChange) (s : State) (i : Fin PULSE_N) (w : Nat)
    (hw : (pulseRead evs s).pulseLengthStable i = w) (h1 : 900 < w) (h2 : w < 2100) :
    (-100 ≤ (pulseRead evs s).pulsePercent i ∧ (pulseRead evs s).pulsePercent i ≤ 100) ∧
    (w = 1500 → (pulseRead evs s).pulsePercent i = 0) ∧
    (w = 1000 → (pulseRead evs s).pulsePercent i = -100) ∧
    (w = 2000 → (pulseRead evs s).pulsePercent i = 100) := by
  rw [percent_after_pulseRead, hw, percentOfWidth_valid w h1 h2]
  refine ⟨⟨?_, ?_⟩, ?_, ?_, ?_⟩
  · omega
  · omega
  · intro h; subst h; decide
  · intro h; subst h; decide
  · intro h; subst h; decide

theorem pulseRead_percent_range_witness :
    (pulseRead windowCentre State.boot).pulseLengthStable 0 = 1500 ∧
    (-100 ≤ (pulseRead windowCentre State.boot).pulsePercent 0 ∧
      (pulseRead windowCentre State.boot).pulsePercent 0 ≤ 100) ∧
    (pulseRead windowCentre State.boot).pulsePercent 0 = 0 :=
  have h := pulseRead_percent_range windowCentre State.boot 0 1500 (by decide) (by decide)
    (by decide)
  ⟨by decide, h.1, h.2.1 rfl⟩

/-- C2: for every stabilized width `w` with `w ≤ 900` or `w ≥ 2100` the percent
that `pulseRead` stores for that channel is 0. The conversion loop alone already
gives 0 from any state holding that width, so neither the liveness flag nor the
other channel matters. -/
theorem pulseRead_percent_invalid (evs : List PinChange) (s : State) (i : Fin PULSE_N) (w : Nat)
    (hw : (pulseRead evs s).pulseLengthStable i = w) (h : w ≤ 900 ∨ 2100 ≤ w) :
    (pulseRead evs s).pulsePercent i = 0 ∧
    (∀ t : State, t.pulseLengthStable i = w → (pulseRead_convert t).pulsePercent i = 0) ∧
    percentOfWidth 0 = 0 ∧ percentOfWidth 65535 = 0 := by
  have h0 : percentOfWidth w = 0 := by
    unfold percentOfWidth
    rw [if_neg (by omega)]
  refine ⟨?_, ?_, by decide, by decide⟩
  · rw [percent_after_pulseRead, hw, h0]
  · intro t ht
    rw [pulseRead_convert_percent, ht, h0]

theorem pulseRead_percent_invalid_witness :
    (pulseRead windowEdge State.boot).pulseLengthStable 1 = 2500 ∧
    (pulseRead windowEdge State.boot).pulseLengthStable 0 = 903 ∧
    (pulseRead windowEdge State.boot).pulsePercent 1 = 0 :=
  ⟨by decide, by decide,
    (pulseRead_percent_invalid windowEdge State.boot 1 2500 (by decide) (by decide)).1⟩

/-- C3: for every stabilized width `w` with `900 < w < 2100` the percent that
`pulseRead` computes is `((clamp(w, 1000, 2000) - 1000 + 2) div 5) - 100`; every
`w` in `(900, 1000]` gives -100 and every `w` in `[2000, 2100)` gives 100. -/
theorem pulseRead_percent_formula (evs : List PinChange) (s : State) (i : Fin PULSE_N) (w : Nat)
    (hw : (pulseRead evs s).pulseLengthStable i = w) (h1 : 900 < w) (h2 : w < 2100) :
    (pulseRead evs s).pulsePercent i = (max (min (w : Int) 2000) 1000 - 1000 + 2) / 5 - 100 ∧
    (w ≤ 1000 → (pulseRead evs s).pulsePercent i = -100) ∧
    (2000 ≤ w → (pulseRead evs s).pulsePercent i = 100) := by
  rw [percent_after_pulseRead, hw, percentOfWidth_valid w h1 h2]
  refine ⟨rfl, ?_, ?_⟩
  · intro h; omega
  · intro h; omega

theorem pulseRead_percent_formula_witness :
    (pulseRead windowEdge State.boot).pulseLengthStable 0 = 903 ∧
    (pulseRead windowEdge State.boot).pulsePercent 0 = -100 :=
  ⟨by decide,
    (pulseRead_percent_formula windowEdge State.boot 0 903 (by decide) (by decide)
      (by decide)).2.1 (by decide)⟩

/-- C4: for every stabilized width `w` in `[1000, 2000]`, with `t = w - 1000`, the
percent that `pulseRead` computes satisfies `percent + 100 = (t + 2) div 5`, and
this integer is the rounding of `t / 5`: it is within `2/5` of it
(`|5 * q - t| ≤ 2`), every other integer is strictly farther away (no tie), and it
is `round (t / 5)`. -/
theorem pulseRead_percent_nearest (evs : List PinChange) (s : State) (i : Fin PULSE_N) (w : Nat)
    (hw : (pulseRead evs s).pulseLengthStable i = w) (h1 : 1000 ≤ w) (h2 : w ≤ 2000) :
    (pulseRead evs s).pulsePercent i + 100 = ((w : Int) - 1000 + 2) / 5 ∧
    |5 * ((pulseRead evs s).pulsePercent i + 100) - ((w : Int) - 1000)| ≤ 2 ∧
    (∀ k : Int, k ≠ (pulseRead evs s).pulsePercent i + 100 →
      |5 * ((pulseRead evs s).pulsePercent i + 100) - ((w : Int) - 1000)| <
        |5 * k - ((w : Int) - 1000)|) ∧
    round ((((w : Int) - 1000 : Int) : ℚ) / 5) = (pulseRead evs s).pulsePercent i + 100 := by
  have hq : (pulseRead evs s).pulsePercent i + 100 = ((w : Int) - 1000 + 2) / 5 := by
    rw [percent_after_pulseRead, hw, percentOfWidth_valid w (by omega) (by omega)]
    omega
  generalize (pulseRead evs s).pulsePercent i + 100 = q at hq ⊢
  generalize hT : (w : Int) - 1000 = T at hq ⊢
  have hlo : 5 * q - T ≤ 2 := by omega
  have hhi : -2 ≤ 5 * q - T := by omega
  have habs : |5 * q - T| ≤ 2 := abs_le.mpr ⟨hhi, hlo⟩
  refine ⟨hq, habs, ?_, ?_⟩
  · intro k hk
    refine lt_of_le_of_lt habs (lt_abs.mpr ?_)
    rcases lt_or_gt_of_ne hk with hlt | hgt
    · right; omega
    · left; omega
  · rw [round_eq, Int.floor_eq_iff]
    have a : ((5 * q - T : Int) : ℚ) ≤ 2 := by exact_mod_cast hlo
    have b : (-2 : ℚ) ≤ ((5 * q - T : Int) : ℚ) := by exact_mod_cast hhi
    push_cast at a b
    constructor <;> linarith

theorem pulseRead_percent_nearest_witness :
    (pulseRead windowCentre State.boot).pulseLengthStable 0 = 1500 ∧
    (pulseRead windowCentre State.boot).pulsePercent 0 + 100 = ((1500 : Nat) - 1000 + 2 : Int) / 5 :=
  ⟨by decide,
    (pulseRead_percent_nearest windowCentre State.boot 0 1500 (by decide) (by decide)
      (by decide)).1⟩

/-! ## Pulse sampler: snapshot -/

theorem pulseRead_convert_raw (s : State) :
    (pulseRead_convert s).pulseLength = s.pulseLength := by
  simp [pulseRead_convert, forLoop]

/-- C5: with `t` the state when the sampling window ends, `pulseRead` leaves in
every channel's stabilized width the channel's raw width if the liveness flag
is set in `t`, and 1500 if it is not; the raw widths themselves are not changed
by the rest of `pulseRead`. The same holds for the snapshot step run from any
state `t`, whatever its raw widths. -/
theorem pulseRead_stabilized (evs : List PinChange) (s : State) (i : Fin PULSE_N) :
    ((pulseRead evs s).pulseLengthStable i =
      if (delay_ms evs (pulseRead_clear s)).signalAlive ≠ 0
        then (delay_ms evs (pulseRead_clear s)).pulseLength i else 1500) ∧
    (pulseRead evs s).pulseLength i = (delay_ms evs (pulseRead_clear s)).pulseLength i ∧
    (∀ t : State, (pulseRead_snapshot t).pulseLengthStable i =
      if t.signalAlive ≠ 0 then t.pulseLength i else 1500) := by
  refine ⟨?_, ?_, fun t => pulseRead_snapshot_stable t i⟩
  · unfold pulseRead
    rw [pulseRead_convert_stable, pulseRead_snapshot_stable]
  · unfold pulseRead
    rw [pulseRead_convert_raw, pulseRead_snapshot_raw]

/-- Both branches of the snapshot occur: with the pulses of `windowEdge` the
flag is set and the raw widths 903 and 2500 are copied; with no pin change the
flag stays clear and both widths are 1500 although the raw widths are not. -/
theorem snapshot_branches_examples :
    (delay_ms windowEdge (pulseRead_clear State.boot)).signalAlive = 1 ∧
    (pulseRead windowEdge State.boot).pulseLengthStable 0 = 903 ∧
    (pulseRead windowEdge State.boot).pulseLengthStable 1 = 2500 ∧
    (delay_ms [] (pulseRead_clear (pulseRead windowEdge State.boot))).signalAlive = 0 ∧
    (pulseRead [] (pulseRead windowEdge State.boot)).pulseLength 0 = 903 ∧
    (pulseRead [] (pulseRead windowEdge State.boot)).pulseLengthStable 0 = 1500 ∧
    (pulseRead [] (pulseRead windowEdge State.boot)).pulseLengthStable 1 = 1500 := by
  decide

/-! ## Motor mixer -/

theorem zero_loop (s : State) :
    forLoop 4 (fun i s => { s with motorDuty := arrSet s.motorDuty i 0 }) s =
      { s with motorDuty := fun _ => 0 } := by
  rw [forLoop_four]
  cases s
  simp only [State.mk.injEq, true_and, and_true]
  funext j
  fin_cases j <;> simp [arrSet]

theorem plus_config_duties (s : State) (h : s.RC4 = true) :
    (mixer s).motorDuty =
      fun j => if j = 0 then (if s.pulsePercent 0 ≥ 0 then 0 else toI16 (-s.pulsePercent 0))
        else if j = 1 then (if s.pulsePercent 1 ≥ 0 then 0 else toI16 (-s.pulsePercent 1))
        else if j = 2 then (if s.pulsePercent 0 ≥ 0 then s.pulsePercent 0 else 0)
        else (if s.pulsePercent 1 ≥ 0 then s.pulsePercent 1 else 0) := by
  funext j
  unfold mixer
  rw [zero_loop]
  simp only [h, if_true]
  fin_cases j <;> split_ifs <;> simp_all [arrSet]

/-- C6: in "+" configuration, for pitch and roll in `[-100, 100]` and any previous
motor values, the mixer leaves `motorDuty = [max(-pitch,0), max(-roll,0),
max(pitch,0), max(roll,0)]`. -/
theorem mixer_plus_output (s : State) (hc : s.RC4 = true)
    (hp : -100 ≤ s.pulsePercent 0 ∧ s.pulsePercent 0 ≤ 100)
    (hr : -100 ≤ s.pulsePercent 1 ∧ s.pulsePercent 1 ≤ 100) :
    (mixer s).motorDuty 0 = max (-s.pulsePercent 0) 0 ∧
    (mixer s).motorDuty 1 = max (-s.pulsePercent 1) 0 ∧
    (mixer s).motorDuty 2 = max (s.pulsePercent 0) 0 ∧
    (mixer s).motorDuty 3 = max (s.pulsePercent 1) 0 := by
  rw [plus_config_duties s hc]
  rw [toI16_eq_self (x := -s.pulsePercent 0) (by omega) (by omega),
    toI16_eq_self (x := -s.pulsePercent 1) (by omega) (by omega)]
  simp only [Fin.isValue, if_true]
  refine ⟨?_, ?_, ?_, ?_⟩ <;> split_ifs <;> omega

theorem mixer_plus_output_witness :
    plusScenario.RC4 = true ∧ plusScenario.pulsePercent 0 = 60 ∧ plusScenario.pulsePercent 1 = 0 ∧
    (mixer plusScenario).motorDuty 0 = 0 ∧ (mixer plusScenario).motorDuty 1 = 0 ∧
    (mixer plusScenario).motorDuty 2 = 60 ∧ (mixer plusScenario).motorDuty 3 = 0 :=
  ⟨rfl, rfl, rfl,
    mixer_plus_output plusScenario rfl ⟨by decide, by decide⟩ ⟨by decide, by decide⟩⟩

/-- C7: in "X" configuration, for pitch and roll in `[-100, 100]` and any previous
motor values, the mixer leaves, unclamped, `motorDuty = [max(-pitch,0) + max(roll,0),
max(-pitch,0) + max(-roll,0), max(pitch,0) + max(-roll,0), max(pitch,0) + max(roll,0)]`. -/
theorem mixer_x_output (s : State) (hc : s.RC4 = false)
    (hp : -100 ≤ s.pulsePercent 0 ∧ s.pulsePercent 0 ≤ 100)
    (hr : -100 ≤ s.pulsePercent 1 ∧ s.pulsePercent 1 ≤ 100) :
    (mixer s).motorDuty 0 = max (-s.pulsePercent 0) 0 + max (s.pulsePercent 1) 0 ∧
    (mixer s).motorDuty 1 = max (-s.pulsePercent 0) 0 + max (-s.pulsePercent 1) 0 ∧
    (mixer s).motorDuty 2 = max (s.pulsePercent 0) 0 + max (-s.pulsePercent 1) 0 ∧
    (mixer s).motorDuty 3 = max (s.pulsePercent 0) 0 + max (s.pulsePercent 1) 0 := by
  obtain ⟨hp1, hp2⟩ := hp
  obtain ⟨hr1, hr2⟩ := hr
  unfold mixer
  rw [zero_loop]
  simp only [hc, Bool.false_eq_true, if_false]
  by_cases h0 : s.pulsePercent 0 ≥ 0 <;> by_cases h1 : s.pulsePercent 1 ≥ 0 <;>
    simp only [h0, h1, if_true, if_false, arrSet, toI16] <;>
    simp <;> omega

theorem mixer_x_output_witness :
    (xScenario.RC4 = false ∧ xScenario.pulsePercent 0 = -30 ∧ xScenario.pulsePercent 1 = 40 ∧
      (mixer xScenario).motorDuty 0 = 70 ∧ (mixer xScenario).motorDuty 1 = 30 ∧
      (mixer xScenario).motorDuty 2 = 0 ∧ (mixer xScenario).motorDuty 3 = 40) ∧
    (xFullScenario.RC4 = false ∧ xFullScenario.pulsePercent 0 = -100 ∧
      xFullScenario.pulsePercent 1 = 100 ∧ (mixer xFullScenario).motorDuty 0 = 200) :=
  ⟨⟨rfl, rfl, rfl,
      mixer_x_output xScenario rfl ⟨by decide, by decide⟩ ⟨by decide, by decide⟩⟩,
    ⟨rfl, rfl, rfl,
      (mixer_x_output xFullScenario rfl ⟨by decide, by decide⟩ ⟨by decide, by decide⟩).1⟩⟩

/-- C8: in "+" configuration, for pitch and roll in `[-100, 100]`, after mixing at
most one of `motorDuty[0]`, `motorDuty[2]` is nonzero and at most one of
`motorDuty[1]`, `motorDuty[3]` is nonzero. -/
theorem mixer_plus_exclusive (s : State) (hc : s.RC4 = true)
    (_hp : -100 ≤ s.pulsePercent 0 ∧ s.pulsePercent 0 ≤ 100)
    (_hr : -100 ≤ s.pulsePercent 1 ∧ s.pulsePercent 1 ≤ 100) :
    ((mixer s).motorDuty 0 = 0 ∨ (mixer s).motorDuty 2 = 0) ∧
    ((mixer s).motorDuty 1 = 0 ∨ (mixer s).motorDuty 3 = 0) := by
  rw [plus_config_duties s hc]
  simp only [Fin.isValue, if_true]
  constructor
  · by_cases h : s.pulsePercent 0 ≥ 0
    · left; simp [h]
    · right; simp [h]
  · by_cases h : s.pulsePercent 1 ≥ 0
    · left; simp [h]
    · right; simp [h]

theorem mixer_plus_exclusive_witness :
    plusScenario.RC4 = true ∧
    ((mixer plusScenario).motorDuty 0 = 0 ∨ (mixer plusScenario).motorDuty 2 = 0) ∧
    ((mixer plusScenario).motorDuty 1 = 0 ∨ (mixer plusScenario).motorDuty 3 = 0) :=
  ⟨rfl, mixer_plus_exclusive plusScenario rfl ⟨by decide, by decide⟩ ⟨by decide, by decide⟩⟩

/-! ## Duty applier -/

theorem PUT_IN_RANGE_percent (m : Int) :
    PUT_IN_RANGE m 0 100 = if m < 0 then 0 else if m ≤ 100 then m else 100 := by
  unfold PUT_IN_RANGE MAX MIN
  split_ifs <;> omega

theorem motorsApplyDuty_body_eq (i : Fin 4) (s : State) :
    motorsApplyDuty_body i s =
      { s with motorDuty := (arrSet s.motorDuty i
          (if PUT_IN_RANGE (s.motorDuty i) 0 100 < 5 then 0
            else PUT_IN_RANGE (s.motorDuty i) 0 100)) } := by
  unfold motorsApplyDuty_body
  cases s
  simp only [arrSet, if_true]
  split_ifs with h
  · simp only [State.mk.injEq, true_and, and_true]
    funext j
    unfold arrSet
    split_ifs <;> rfl
  · simp only [State.mk.injEq, true_and, and_true]

theorem motorsApplyDuty_clamp_duty (s : State) (j : Fin 4) :
    (motorsApplyDuty_clamp s).motorDuty j =
      if PUT_IN_RANGE (s.motorDuty j) 0 100 < 5 then 0 else PUT_IN_RANGE (s.motorDuty j) 0 100 := by
  unfold motorsApplyDuty_clamp
  rw [forLoop_four]
  simp only [motorsApplyDuty_body_eq]
  fin_cases j <;> simp [arrSet]

theorem motorsApplyDuty_duty (s : State) :
    (motorsApplyDuty s).motorDuty = (motorsApplyDuty_clamp s).motorDuty := rfl

/-- The applier on the mixer outputs 4, 5, 150, -7: committed percents 0, 5, 100, 0
and duty registers 0, 8, 160, 0. -/
theorem motorsApplyDuty_example :
    (motorsApplyDuty dutyScenario).motorDuty 0 = 0 ∧
    (motorsApplyDuty dutyScenario).motorDuty 1 = 5 ∧
    (motorsApplyDuty dutyScenario).motorDuty 2 = 100 ∧
    (motorsApplyDuty dutyScenario).motorDuty 3 = 0 ∧
    (motorsApplyDuty dutyScenario).CCPR1L = 0 ∧
    (motorsApplyDuty dutyScenario).CCPR2L = 8 ∧
    (motorsApplyDuty dutyScenario).CCPR3L = 160 ∧
    (motorsApplyDuty dutyScenario).CCPR4L = 0 := by
  decide

/-- C9: for every mixer output `m = motorDuty[i]`, `motorsApplyDuty` leaves in
`motorDuty[i]` the value 0 when `m < 5`, `m` itself when `5 ≤ m ≤ 100` (so 5 is
kept), and 100 when `m > 100`. -/
theorem motorsApplyDuty_deadzone (s : State) (i : Fin 4) :
    (motorsApplyDuty s).motorDuty i =
      if s.motorDuty i < 5 then 0 else if s.motorDuty i ≤ 100 then s.motorDuty i else 100 := by
  rw [motorsApplyDuty_duty, motorsApplyDuty_clamp_duty, PUT_IN_RANGE_percent]
  split_ifs <;> omega

/-- C10: for every mixer output, the percent `motorsApplyDuty` commits for a
motor is 0 or lies in `[5, 100]`, and the value written to each PWM duty
register is the conversion of that committed percent. -/
theorem motorsApplyDuty_committed (s : State) (i : Fin 4) :
    ((motorsApplyDuty s).motorDuty i = 0 ∨
      (5 ≤ (motorsApplyDuty s).motorDuty i ∧ (motorsApplyDuty s).motorDuty i ≤ 100)) ∧
    (motorsApplyDuty s).CCPR1L = toU8 (PERCENT2CCPRxL ((motorsApplyDuty s).motorDuty 0)) ∧
    (motorsApplyDuty s).CCPR2L = toU8 (PERCENT2CCPRxL ((motorsApplyDuty s).motorDuty 1)) ∧
    (motorsApplyDuty s).CCPR3L = toU8 (PERCENT2CCPRxL ((motorsApplyDuty s).motorDuty 2)) ∧
    (motorsApplyDuty s).CCPR4L = toU8 (PERCENT2CCPRxL ((motorsApplyDuty s).motorDuty 3)) := by
  refine ⟨?_, rfl, rfl, rfl, rfl⟩
  rw [motorsApplyDuty_duty, motorsApplyDuty_clamp_duty, PUT_IN_RANGE_percent]
  split_ifs <;> omega

/-! ## Duty conversion -/

theorem PERCENT2CCPRxL_exact (p : Int) (h0 : 0 ≤ p) (h1 : p ≤ 100) :
    PERCENT2CCPRxL p = (16 * p + 5) / 10 := by
  unfold PERCENT2CCPRxL
  rw [toI16_eq_self (x := p * 16) (by omega) (by omega),
    toI16_eq_self (x := p * 16 + 5) (by omega) (by omega),
    Int.tdiv_eq_ediv (by omega) (by omega),
    toI16_eq_self (x := (p * 16 + 5) / 10) (by omega) (by omega)]
  omega

theorem toU8_PERCENT2CCPRxL (p : Int) (h0 : 0 ≤ p) (h1 : p ≤ 100) :
    ((toU8 (PERCENT2CCPRxL p) : Nat) : Int) = (16 * p + 5) / 10 := by
  rw [PERCENT2CCPRxL_exact p h0 h1]
  unfold toU8
  omega

theorem committed_range (s : State) (j : Fin 4) :
    0 ≤ (motorsApplyDuty s).motorDuty j ∧ (motorsApplyDuty s).motorDuty j ≤ 100 ∧
    ((motorsApplyDuty s).motorDuty j = 0 ∨ 5 ≤ (motorsApplyDuty s).motorDuty j) := by
  rw [motorsApplyDuty_duty, motorsApplyDuty_clamp_duty, PUT_IN_RANGE_percent]
  split_ifs <;> omega

/-- C11: the value `motorsApplyDuty` writes to each duty register is
`(16 * p + 5) div 10` for the committed percent `p` of its own motor (motor 0 to
`CCPR1L`, 1 to `CCPR2L`, 2 to `CCPR3L`, 3 to `CCPR4L`); for every `p` in
`[0, 100]` this is the half-up rounding of `p * 160 / 100`, that is
`floor (1.6 * p + 1/2)`; 0 maps to 0, 5 to 8 and 100 to 160. -/
theorem duty_register_value (s : State) :
    (((motorsApplyDuty s).CCPR1L : Int) = (16 * (motorsApplyDuty s).motorDuty 0 + 5) / 10 ∧
      ((motorsApplyDuty s).CCPR2L : Int) = (16 * (motorsApplyDuty s).motorDuty 1 + 5) / 10 ∧
      ((motorsApplyDuty s).CCPR3L : Int) = (16 * (motorsApplyDuty s).motorDuty 2 + 5) / 10 ∧
      ((motorsApplyDuty s).CCPR4L : Int) = (16 * (motorsApplyDuty s).motorDuty 3 + 5) / 10) ∧
    (∀ p : Int, 0 ≤ p → p ≤ 100 →
      ((toU8 (PERCENT2CCPRxL p) : Nat) : Int) = (16 * p + 5) / 10 ∧
      (16 * p + 5) / 10 = round ((p : ℚ) * (160 / 100)) ∧
      (16 * p + 5) / 10 = ⌊(16 / 10 : ℚ) * p + 1 / 2⌋) ∧
    toU8 (PERCENT2CCPRxL 0) = 0 ∧ toU8 (PERCENT2CCPRxL 5) = 8 ∧
    toU8 (PERCENT2CCPRxL 100) = 160 := by
  refine ⟨⟨?_, ?_, ?_, ?_⟩, ?_, by decide, by decide, by decide⟩
  · exact toU8_PERCENT2CCPRxL _ (committed_range s 0).1 (committed_range s 0).2.1
  · exact toU8_PERCENT2CCPRxL _ (committed_range s 1).1 (committed_range s 1).2.1
  · exact toU8_PERCENT2CCPRxL _ (committed_range s 2).1 (committed_range s 2).2.1
  · exact toU8_PERCENT2CCPRxL _ (committed_range s 3).1 (committed_range s 3).2.1
  · intro p h0 h1
    have hlo : 10 * ((16 * p + 5) / 10) ≤ 16 * p + 5 := by omega
    have hhi : 16 * p + 5 < 10 * ((16 * p + 5) / 10) + 10 := by omega
    refine ⟨toU8_PERCENT2CCPRxL p h0 h1, ?_⟩
    generalize (16 * p + 5) / 10 = z at hlo hhi ⊢
    have a : ((10 * z : Int) : ℚ) ≤ ((16 * p + 5 : Int) : ℚ) := by exact_mod_cast hlo
    have b : ((16 * p + 5 : Int) : ℚ) < ((10 * z + 10 : Int) : ℚ) := by exact_mod_cast hhi
    push_cast at a b
    refine ⟨?_, ?_⟩
    · rw [eq_comm, round_eq, Int.floor_eq_iff]
      constructor <;> linarith
    · rw [eq_comm, Int.floor_eq_iff]
      constructor <;> linarith

/-! ## Signal loss -/

theorem mixer_percent (s : State) : (mixer s).pulsePercent = s.pulsePercent := by
  unfold mixer
  rw [zero_loop]
  cases s.RC4 <;> simp only [Bool.false_eq_true, if_false, if_true] <;> split_ifs <;> rfl

theorem mixer_centre (s : State) (h0 : s.pulsePercent 0 = 0) (h1 : s.pulsePercent 1 = 0)
    (j : Fin 4) : (mixer s).motorDuty j = 0 := by
  have z : toI16 0 = 0 := by decide
  unfold mixer
  rw [zero_loop]
  cases s.RC4 <;> simp only [Bool.false_eq_true, if_false, if_true, h0, h1] <;>
    fin_cases j <;> simp [arrSet, z, h0, h1]

theorem motorsApplyDuty_percent (s : State) :
    (motorsApplyDuty s).pulsePercent = s.pulsePercent := by
  unfold motorsApplyDuty motorsApplyDuty_clamp
  rw [forLoop_four]
  simp only [motorsApplyDuty_body_eq]

/-- C12: in a control cycle in which the liveness flag is still 0 when
`pulseRead` tests it, whatever the frame configuration, the raw widths and the
previous duties are, both percents are 0, all four motor percents are 0 and all
four duty registers are written 0. -/
theorem signal_lost_cycle (evs : List PinChange) (s : State)
    (h : (delay_ms evs (pulseRead_clear s)).signalAlive = 0) :
    ((mainCycle evs s).pulsePercent 0 = 0 ∧ (mainCycle evs s).pulsePercent 1 = 0) ∧
    (∀ j : Fin 4, (mainCycle evs s).motorDuty j = 0) ∧
    (mainCycle evs s).CCPR1L = 0 ∧ (mainCycle evs s).CCPR2L = 0 ∧
    (mainCycle evs s).CCPR3L = 0 ∧ (mainCycle evs s).CCPR4L = 0 := by
  have hp : ∀ i : Fin PULSE_N, (pulseRead evs s).pulsePercent i = 0 := by
    intro i
    rw [percent_after_pulseRead]
    unfold pulseRead
    rw [pulseRead_convert_stable, pulseRead_snapshot_stable, if_neg (by simp [h])]
    decide
  have hm : ∀ j : Fin 4, (mixer (pulseRead evs s)).motorDuty j = 0 :=
    mixer_centre _ (hp 0) (hp 1)
  have hd : ∀ j : Fin 4, (mainCycle evs s).motorDuty j = 0 := by
    intro j
    unfold mainCycle
    rw [motorsApplyDuty_duty, motorsApplyDuty_clamp_duty, hm j]
    decide
  have hz : toU8 (PERCENT2CCPRxL 0) = 0 := by decide
  refine ⟨⟨?_, ?_⟩, hd, ?_, ?_, ?_, ?_⟩
  · unfold mainCycle
    rw [motorsApplyDuty_percent, mixer_percent, hp 0]
  · unfold mainCycle
    rw [motorsApplyDuty_percent, mixer_percent, hp 1]
  · show toU8 (PERCENT2CCPRxL ((mainCycle evs s).motorDuty 0)) = 0
    rw [hd 0, hz]
  · show toU8 (PERCENT2CCPRxL ((mainCycle evs s).motorDuty 1)) = 0
    rw [hd 1, hz]
  · show toU8 (PERCENT2CCPRxL ((mainCycle evs s).motorDuty 2)) = 0
    rw [hd 2, hz]
  · show toU8 (PERCENT2CCPRxL ((mainCycle evs s).motorDuty 3)) = 0
    rw [hd 3, hz]

theorem signal_lost_cycle_witness :
    (delay_ms [] (pulseRead_clear staleScenario)).signalAlive = 0 ∧
    staleScenario.RC4 = false ∧ staleScenario.pulseLength 0 = 1800 ∧
    staleScenario.motorDuty 0 = 60 ∧ staleScenario.CCPR1L = 96 ∧
    (mainCycle [] staleScenario).pulsePercent 0 = 0 ∧
    (mainCycle [] staleScenario).motorDuty 0 = 0 ∧
    (mainCycle [] staleScenario).CCPR1L = 0 :=
  have h := signal_lost_cycle [] staleScenario rfl
  ⟨rfl, rfl, rfl, rfl, rfl, h.1.1, h.2.1 0, h.2.2.1⟩

/-! ## Interrupt routine -/

theorem toU16_cast (x : Int) : ((toU16 x : Nat) : Int) = x % 65536 := by
  unfold toU16; omega

theorem main_init_armed (s : State) (i : Fin PULSE_N) :
    armedRising i (main_init s) = true ∧ armedFalling i (main_init s) = false := by
  simp only [main_init, motorsApplyDuty, motorsApplyDuty_clamp, zero_loop, forLoop_four,
    motorsApplyDuty_body_eq]
  fin_cases i <;> simp [armedRising, armedFalling]

/-- C14: when the interrupt routine handles a change flagged on channel `i`
at tick `TMR1`: armed for the rising edge, it stores the tick in
`pulseStart[i]`, keeps `pulseLength[i]` and arms the falling edge; otherwise
(armed for the falling edge) it stores `(TMR1 - pulseStart[i]) mod 2^16` in
`pulseLength[i]`, keeps `pulseStart[i]` and arms the rising edge. In both cases
the channel's change flag and `IOCIF` are clear on return and the armed
direction is flipped; `main` starts both channels armed for the rising edge
only. -/
theorem isr_edge (i : Fin PULSE_N) (s : State) (hif : s.IOCIF = true)
    (hf : changeFlag i s = true) :
    (armedRising i s = true →
      (interrupt_routine s).pulseStart i = s.TMR1 ∧
      (interrupt_routine s).pulseLength i = s.pulseLength i ∧
      armedRising i (interrupt_routine s) = false ∧
      armedFalling i (interrupt_routine s) = true) ∧
    (armedRising i s = false →
      ((interrupt_routine s).pulseLength i : Int) =
        ((s.TMR1 : Int) - (s.pulseStart i : Int)) % 65536 ∧
      (interrupt_routine s).pulseStart i = s.pulseStart i ∧
      armedRising i (interrupt_routine s) = true ∧
      armedFalling i (interrupt_routine s) = false) ∧
    changeFlag i (interrupt_routine s) = false ∧ (interrupt_routine s).IOCIF = false ∧
    armedRising i (interrupt_routine s) = (!armedRising i s) ∧
    armedFalling i (interrupt_routine s) = (!armedRising i (interrupt_routine s)) ∧
    (∀ s0 : State, armedRising i (main_init s0) = true ∧ armedFalling i (main_init s0) = false) := by
  refine ⟨?_, ?_, ?_, ?_, ?_, ?_, fun s0 => main_init_armed s0 i⟩ <;> fin_cases i
  all_goals
    simp only [changeFlag, armedRising, armedFalling, Fin.zero_eta, Fin.mk_one, Fin.isValue,
      one_ne_zero, if_true, if_false] at hf ⊢
    unfold interrupt_routine
    cases h5 : s.IOCAP5 <;> cases h5f : s.IOCAF5 <;> cases h4f : s.IOCAF4 <;>
      cases h4 : s.IOCAP4 <;>
      simp_all [arrSet, toU16_cast]

theorem isr_edge_witness :
    risingEntry.IOCIF = true ∧ changeFlag 0 risingEntry = true ∧
    armedRising 0 risingEntry = true ∧
    (interrupt_routine risingEntry).pulseStart 0 = 100 ∧
    armedRising 0 (interrupt_routine risingEntry) = false ∧
    armedFalling 0 (interrupt_routine risingEntry) = true ∧
    fallingEntry.IOCIF = true ∧ changeFlag 0 fallingEntry = true ∧
    armedRising 0 fallingEntry = false ∧
    ((interrupt_routine fallingEntry).pulseLength 0 : Int) = ((1700 : Nat) - (100 : Nat)) % 65536 ∧
    armedRising 0 (interrupt_routine fallingEntry) = true :=
  have h := (isr_edge 0 risingEntry rfl rfl).1 rfl
  have k := (isr_edge 0 fallingEntry rfl rfl).2.1 rfl
  ⟨rfl, rfl, rfl, h.1, h.2.2.1, h.2.2.2, rfl, rfl, rfl, k.1, k.2.2.1⟩

theorem isr_keeps_main_data (s : State) :
    (interrupt_routine s).pulseLengthStable = s.pulseLengthStable ∧
    (interrupt_routine s).pulsePercent = s.pulsePercent ∧
    (interrupt_routine s).motorDuty = s.motorDuty ∧
    (interrupt_routine s).GIE = s.GIE ∧ (interrupt_routine s).IOCIE = s.IOCIE ∧
    (interrupt_routine s).CCPR1L = s.CCPR1L ∧ (interrupt_routine s).CCPR2L = s.CCPR2L ∧
    (interrupt_routine s).CCPR3L = s.CCPR3L ∧ (interrupt_routine s).CCPR4L = s.CCPR4L := by
  unfold interrupt_routine
  cases hif : s.IOCIF <;> cases h5 : s.IOCAP5 <;> cases h5f : s.IOCAF5 <;>
    cases h4f : s.IOCAF4 <;> cases h4 : s.IOCAP4 <;> simp

/-- One invocation with both change flags set handles both channels. -/
theorem both_channels_example :
    (interrupt_routine { risingEntry with IOCAF4 := true }).pulseStart 0 = 100 ∧
    (interrupt_routine { risingEntry with IOCAF4 := true }).pulseStart 1 = 100 ∧
    armedFalling 0 (interrupt_routine { risingEntry with IOCAF4 := true }) = true ∧
    armedFalling 1 (interrupt_routine { risingEntry with IOCAF4 := true }) = true ∧
    (interrupt_routine risingEntry).pulseStart 1 = 0 ∧
    armedRising 1 (interrupt_routine risingEntry) = true := by
  decide

/-- C16: an invocation of the interrupt routine leaves the start timestamp,
raw width and armed direction of every channel whose change flag is not set
unchanged, never modifies the stabilized widths, the percents, the motor
duties or the duty registers, and treats each channel exactly as it would with
the other channel's flag clear (so with both flags set each channel is handled
as if alone). -/
theorem isr_frame (s : State) (i : Fin PULSE_N) :
    (changeFlag i s = false →
      (interrupt_routine s).pulseStart i = s.pulseStart i ∧
      (interrupt_routine s).pulseLength i = s.pulseLength i ∧
      armedRising i (interrupt_routine s) = armedRising i s ∧
      armedFalling i (interrupt_routine s) = armedFalling i s) ∧
    ((interrupt_routine s).pulseLengthStable = s.pulseLengthStable ∧
      (interrupt_routine s).pulsePercent = s.pulsePercent ∧
      (interrupt_routine s).motorDuty = s.motorDuty ∧
      (interrupt_routine s).CCPR1L = s.CCPR1L ∧ (interrupt_routine s).CCPR2L = s.CCPR2L ∧
      (interrupt_routine s).CCPR3L = s.CCPR3L ∧ (interrupt_routine s).CCPR4L = s.CCPR4L) ∧
    ((interrupt_routine s).pulseStart i = (interrupt_routine (onlyChannel i s)).pulseStart i ∧
      (interrupt_routine s).pulseLength i = (interrupt_routine (onlyChannel i s)).pulseLength i ∧
      armedRising i (interrupt_routine s) = armedRising i (interrupt_routine (onlyChannel i s)) ∧
      armedFalling i (interrupt_routine s) =
        armedFalling i (interrupt_routine (onlyChannel i s)) ∧
      changeFlag i (interrupt_routine s) = changeFlag i (interrupt_routine (onlyChannel i s))) := by
  have hm := isr_keeps_main_data s
  refine ⟨?_, ⟨hm.1, hm.2.1, hm.2.2.1, hm.2.2.2.2.2.1, hm.2.2.2.2.2.2.1, hm.2.2.2.2.2.2.2.1,
    hm.2.2.2.2.2.2.2.2⟩, ?_⟩ <;> clear hm <;> fin_cases i
  all_goals
    simp only [changeFlag, armedRising, armedFalling, onlyChannel, Fin.zero_eta, Fin.mk_one,
      Fin.isValue, one_ne_zero, if_true, if_false]
    unfold interrupt_routine
    cases hif : s.IOCIF <;> cases h5 : s.IOCAP5 <;> cases h5f : s.IOCAF5 <;>
      cases h4f : s.IOCAF4 <;> cases h4 : s.IOCAP4 <;> simp_all [arrSet]

/-! ## Pin changes served by the interrupt routine -/

theorem pinChange_alive (e : PinChange) (s : State) :
    (pinChange e s).signalAlive = if irqTaken e s then 1 else s.signalAlive := by
  unfold pinChange irqTaken interrupt_routine
  cases s.GIE <;> cases s.IOCIE <;> cases s.IOCIF <;> cases e.ra5 <;> cases e.ra4 <;> simp <;>
    split_ifs <;> rfl

theorem delay_ms_cons (e : PinChange) (es : List PinChange) (s : State) :
    delay_ms (e :: es) s = delay_ms es (pinChange e s) := rfl

theorem delay_ms_append (es fs : List PinChange) (s : State) :
    delay_ms (es ++ fs) s = delay_ms fs (delay_ms es s) := by
  unfold delay_ms
  rw [List.foldl_append]

theorem irqCount_cons (e : PinChange) (es : List PinChange) (s : State) :
    irqCount (e :: es) s = (if irqTaken e s then 1 else 0) + irqCount es (pinChange e s) := rfl

theorem delay_ms_alive (evs : List PinChange) :
    ∀ s : State, (delay_ms evs s).signalAlive =
      if 0 < irqCount evs s then 1 else s.signalAlive := by
  induction evs with
  | nil => intro s; simp [delay_ms, irqCount]
  | cons e es ih =>
    intro s
    rw [delay_ms_cons, ih, pinChange_alive, irqCount_cons]
    by_cases h : irqTaken e s = true
    · simp [h]
    · simp [h]

theorem pinChange_rising (i : Fin PULSE_N) (e : PinChange) (s : State) (hs : idle s = true)
    (hr : armedRising i s = true) (he : changeOn i e = true) :
    idle (pinChange e s) = true ∧ armedRising i (pinChange e s) = false ∧
    (pinChange e s).pulseStart i = e.tick % 65536 := by
  simp only [idle, Bool.and_eq_true, Bool.not_eq_true'] at hs
  obtain ⟨⟨⟨⟨g, ie⟩, f⟩, f5⟩, f4⟩ := hs
  fin_cases i
  all_goals
    simp only [changeOn, armedRising, Fin.zero_eta, Fin.mk_one, Fin.isValue, one_ne_zero,
      if_true, if_false] at hr he ⊢
    unfold pinChange interrupt_routine idle
    cases h5 : s.IOCAP5 <;> cases h4 : s.IOCAP4 <;> cases e5 : e.ra5 <;> cases e4 : e.ra4 <;>
      simp_all [arrSet]

theorem pinChange_other (i : Fin PULSE_N) (e : PinChange) (s : State) (hs : idle s = true)
    (he : changeOn i e = false) :
    idle (pinChange e s) = true ∧ armedRising i (pinChange e s) = armedRising i s ∧
    (pinChange e s).pulseStart i = s.pulseStart i ∧
    (pinChange e s).pulseLength i = s.pulseLength i := by
  simp only [idle, Bool.and_eq_true, Bool.not_eq_true'] at hs
  obtain ⟨⟨⟨⟨g, ie⟩, f⟩, f5⟩, f4⟩ := hs
  fin_cases i
  all_goals
    simp only [changeOn, armedRising, Fin.zero_eta, Fin.mk_one, Fin.isValue, one_ne_zero,
      if_true, if_false] at he ⊢
    unfold pinChange interrupt_routine idle
    cases h5 : s.IOCAP5 <;> cases h4 : s.IOCAP4 <;> cases e5 : e.ra5 <;> cases e4 : e.ra4 <;>
      simp_all [arrSet]

theorem pinChange_falling (i : Fin PULSE_N) (e : PinChange) (s : State) (hs : idle s = true)
    (hr : armedRising i s = false) (he : changeOn i e = true) :
    ((pinChange e s).pulseLength i : Int) =
      (((e.tick % 65536 : Nat) : Int) - (s.pulseStart i : Int)) % 65536 := by
  simp only [idle, Bool.and_eq_true, Bool.not_eq_true'] at hs
  obtain ⟨⟨⟨⟨g, ie⟩, f⟩, f5⟩, f4⟩ := hs
  fin_cases i
  all_goals
    simp only [changeOn, armedRising, Fin.zero_eta, Fin.mk_one, Fin.isValue, one_ne_zero,
      if_true, if_false] at hr he ⊢
    unfold pinChange interrupt_routine
    cases h5 : s.IOCAP5 <;> cases h4 : s.IOCAP4 <;> cases e5 : e.ra5 <;> cases e4 : e.ra4 <;>
      simp_all [arrSet, toU16_cast]

theorem delay_ms_other (i : Fin PULSE_N) (mid : List PinChange) :
    ∀ s : State, idle s = true → (∀ m ∈ mid, changeOn i m = false) →
      idle (delay_ms mid s) = true ∧ armedRising i (delay_ms mid s) = armedRising i s ∧
      (delay_ms mid s).pulseStart i = s.pulseStart i ∧
      (delay_ms mid s).pulseLength i = s.pulseLength i := by
  induction mid with
  | nil => intro s hs _; exact ⟨hs, rfl, rfl, rfl⟩
  | cons m ms ih =>
    intro s hs hm
    have h1 := pinChange_other i m s hs (hm m (List.mem_cons_self m ms))
    have h2 := ih (pinChange m s) h1.1 (fun x hx => hm x (List.mem_cons_of_mem m hx))
    rw [delay_ms_cons]
    exact ⟨h2.1, h2.2.1.trans h1.2.1, h2.2.2.1.trans h1.2.2.1, h2.2.2.2.trans h1.2.2.2⟩

/-- C13: for a channel armed for its rising edge, let the interrupt routine
serve a change of that channel at tick `e0.tick`, then any changes of the other
channel only, then a change of that channel at tick `e1.tick` (both ticks
16-bit values). The raw width is then `(e1.tick - e0.tick) mod 2^16`; hence if
the counter advanced by `d < 65536` ticks, `e1.tick = (e0.tick + d) mod 2^16`,
the raw width is exactly `d`, also when the counter wrapped. -/
theorem capture_width (i : Fin PULSE_N) (s : State) (hs : idle s = true)
    (hr : armedRising i s = true) (e0 e1 : PinChange) (mid : List PinChange)
    (h0 : changeOn i e0 = true) (h1 : changeOn i e1 = true)
    (hmid : ∀ m ∈ mid, changeOn i m = false)
    (ht0 : e0.tick < 65536) (ht1 : e1.tick < 65536) :
    ((delay_ms (e0 :: (mid ++ [e1])) s).pulseLength i : Int) =
      ((e1.tick : Int) - (e0.tick : Int)) % 65536 ∧
    (∀ d : Nat, d < 65536 → e1.tick = (e0.tick + d) % 65536 →
      (delay_ms (e0 :: (mid ++ [e1])) s).pulseLength i = d) := by
  have a := pinChange_rising i e0 s hs hr h0
  have b := delay_ms_other i mid (pinChange e0 s) a.1 hmid
  have c := pinChange_falling i e1 (delay_ms mid (pinChange e0 s)) b.1
    (b.2.1.trans a.2.1) h1
  have hrun : delay_ms (e0 :: (mid ++ [e1])) s =
      pinChange e1 (delay_ms mid (pinChange e0 s)) := by
    rw [delay_ms_cons, delay_ms_append]
    rfl
  rw [hrun, c, b.2.2.1, a.2.2]
  have key : (((e1.tick % 65536 : Nat) : Int) - ((e0.tick % 65536 : Nat) : Int)) % 65536 =
      ((e1.tick : Int) - (e0.tick : Int)) % 65536 := by omega
  refine ⟨key, ?_⟩
  intro d hd he
  have hc : ((pinChange e1 (delay_ms mid (pinChange e0 s))).pulseLength i : Int) = (d : Int) := by
    rw [c, b.2.2.1, a.2.2]
    omega
  exact_mod_cast hc

theorem capture_width_witness :
    idle State.boot = true ∧ armedRising 0 State.boot = true ∧
    (delay_ms [⟨0xFFFF, true, false⟩, ⟨3, false, true⟩, ⟨0x0007, true, false⟩]
      State.boot).pulseLength 0 = 8 :=
  ⟨rfl, rfl,
    (capture_width 0 State.boot rfl rfl ⟨0xFFFF, true, false⟩ ⟨0x0007, true, false⟩
      [⟨3, false, true⟩] rfl rfl (by decide) (by decide) (by decide)).2 8 (by decide)
      (by decide)⟩

/-- Three served pin changes set the flag; the same pin changes with `GIE`
clear are only latched, no invocation occurs and the flag stays 0. -/
theorem liveness_examples :
    irqCount windowEdge (pulseRead_clear State.boot) = 3 ∧
    (delay_ms windowEdge (pulseRead_clear State.boot)).signalAlive = 1 ∧
    irqCount windowEdge (pulseRead_clear { State.boot with GIE := false }) = 0 ∧
    (delay_ms windowEdge (pulseRead_clear { State.boot with GIE := false })).signalAlive = 0 ∧
    (delay_ms windowEdge (pulseRead_clear { State.boot with GIE := false })).IOCIF = true := by
  decide

/-- C15: the liveness flag that `pulseRead` tests after the sampling window is
set exactly when at least one interrupt-on-change invocation of the interrupt
routine occurred since `pulseRead` cleared it; its value is then 1, whatever
channel and edge direction the invocations were for. -/
theorem liveness_iff_interrupt (evs : List PinChange) (s : State) :
    ((delay_ms evs (pulseRead_clear s)).signalAlive ≠ 0 ↔
      0 < irqCount evs (pulseRead_clear s)) ∧
    (delay_ms evs (pulseRead_clear s)).signalAlive =
      (if 0 < irqCount evs (pulseRead_clear s) then 1 else 0) ∧
    (∀ sch : Nat → List PinChange,
      ((stmt_clear ⟨s, []⟩).env (sch 0)).st = delay_ms (sch 0) (pulseRead_clear s)) := by
  have h := delay_ms_alive evs (pulseRead_clear s)
  have hc : (pulseRead_clear s).signalAlive = 0 := rfl
  rw [hc] at h
  refine ⟨?_, h, fun _ => rfl⟩
  rw [h]
  split_ifs with hk
  · simp [hk]
  · simp [hk]

/-! ## Interleaved runs of `pulseRead` -/

theorem pinChange_masked (e : PinChange) (s : State) (h : s.GIE = false) :
    (pinChange e s).GIE = false ∧ (pinChange e s).pulseLength = s.pulseLength ∧
    (pinChange e s).signalAlive = s.signalAlive ∧ irqTaken e s = false := by
  unfold pinChange irqTaken
  simp [h]

theorem delay_ms_masked (evs : List PinChange) :
    ∀ s : State, s.GIE = false →
      (delay_ms evs s).GIE = false ∧ (delay_ms evs s).pulseLength = s.pulseLength ∧
      (delay_ms evs s).signalAlive = s.signalAlive ∧ irqCount evs s = 0 := by
  induction evs with
  | nil => intro s h; exact ⟨h, rfl, rfl, rfl⟩
  | cons e es ih =>
    intro s h
    have h1 := pinChange_masked e s h
    have h2 := ih (pinChange e s) h1.1
    rw [delay_ms_cons, irqCount_cons, h1.2.2.2, h2.2.2.2]
    exact ⟨h2.1, h2.2.1.trans h1.2.1, h2.2.2.1.trans h1.2.2.1, rfl⟩

theorem pinChange_keeps (e : PinChange) (s : State) :
    (pinChange e s).pulseLengthStable = s.pulseLengthStable ∧ (pinChange e s).GIE = s.GIE := by
  unfold pinChange
  simp only []
  split_ifs
  · exact ⟨(isr_keeps_main_data _).1, (isr_keeps_main_data _).2.2.2.1⟩
  · exact ⟨rfl, rfl⟩

theorem delay_ms_keeps (evs : List PinChange) :
    ∀ s : State, (delay_ms evs s).pulseLengthStable = s.pulseLengthStable ∧
      (delay_ms evs s).GIE = s.GIE := by
  induction evs with
  | nil => intro s; exact ⟨rfl, rfl⟩
  | cons e es ih =>
    intro s
    rw [delay_ms_cons]
    exact ⟨(ih _).1.trans (pinChange_keeps e s).1, (ih _).2.trans (pinChange_keeps e s).2⟩

theorem serve_keeps (s : State) :
    (serve s).pulseLengthStable = s.pulseLengthStable ∧ (serve s).GIE = s.GIE := by
  unfold serve
  split_ifs
  · exact ⟨(isr_keeps_main_data _).1, (isr_keeps_main_data _).2.2.2.1⟩
  · exact ⟨rfl, rfl⟩

theorem traced_convert_stable (sch : Nat → List PinChange) (r : Run) :
    (traced_convert sch r).st.pulseLengthStable = r.st.pulseLengthStable := by
  unfold traced_convert
  rw [forLoop_two]
  simp only [stmt_percent, Run.env, Run.touch]
  rw [(delay_ms_keeps _ _).1, (delay_ms_keeps _ _).1]

theorem traced_snapshot_alive (sch : Nat → List PinChange) (r : Run)
    (h : r.st.signalAlive ≠ 0) : traced_snapshot sch r = critLeave sch r := by
  have ht : (stmt_test r).st.signalAlive ≠ 0 := h
  unfold traced_snapshot
  simp only [ht, ne_eq, not_false_eq_true, if_true]
  rw [forLoop_two]
  rfl

theorem crit_masked (sch : Nat → List PinChange) (r : Run) :
    ((critEnter sch r).env (sch 2)).st.GIE = false ∧
    ((critEnter sch r).env (sch 2)).st.pulseLength = (critEnter sch r).st.pulseLength ∧
    ((critCopy0 sch r).env (sch 3)).st.GIE = false ∧
    ((critCopy0 sch r).env (sch 3)).st.pulseLength = (critEnter sch r).st.pulseLength ∧
    ((critCopy1 sch r).env (sch 4)).st.GIE = false ∧
    ((critCopy1 sch r).env (sch 4)).st.pulseLength = (critEnter sch r).st.pulseLength ∧
    irqCount (sch 2) (critEnter sch r).st = 0 ∧
    irqCount (sch 3) (critCopy0 sch r).st = 0 ∧
    irqCount (sch 4) (critCopy1 sch r).st = 0 := by
  have g0 : (critEnter sch r).st.GIE = false := rfl
  have m2 := delay_ms_masked (sch 2) (critEnter sch r).st g0
  have g1 : (critCopy0 sch r).st.GIE = false := m2.1
  have l1 : (critCopy0 sch r).st.pulseLength = (critEnter sch r).st.pulseLength := m2.2.1
  have m3 := delay_ms_masked (sch 3) (critCopy0 sch r).st g1
  have g2 : (critCopy1 sch r).st.GIE = false := m3.1
  have l2 : (critCopy1 sch r).st.pulseLength = (critEnter sch r).st.pulseLength :=
    m3.2.1.trans l1
  have m4 := delay_ms_masked (sch 4) (critCopy1 sch r).st g2
  exact ⟨m2.1, m2.2.1, m3.1, m3.2.1.trans l1, m4.1, m4.2.1.trans l2, m2.2.2.2, m3.2.2.2,
    m4.2.2.2⟩

theorem critLeave_stable (sch : Nat → List PinChange) (r : Run) (i : Fin PULSE_N) :
    (critLeave sch r).st.pulseLengthStable i = (critEnter sch r).st.pulseLength i := by
  have m := crit_masked sch r
  have e1 : (critLeave sch r).st.pulseLengthStable = (critCopy1 sch r).st.pulseLengthStable := by
    show (serve _).pulseLengthStable = _
    rw [(serve_keeps _).1]
    exact (delay_ms_keeps (sch 4) _).1
  have e2 : (critCopy1 sch r).st.pulseLengthStable =
      arrSet ((critCopy0 sch r).st.pulseLengthStable) 1 ((critEnter sch r).st.pulseLength 1) := by
    have e : (critCopy1 sch r).st.pulseLengthStable =
        arrSet ((critCopy0 sch r).env (sch 3)).st.pulseLengthStable 1
          (((critCopy0 sch r).env (sch 3)).st.pulseLength 1) := rfl
    have k : ((critCopy0 sch r).env (sch 3)).st.pulseLengthStable =
        (critCopy0 sch r).st.pulseLengthStable := (delay_ms_keeps (sch 3) _).1
    rw [e, m.2.2.2.1, k]
  have e3 : (critCopy0 sch r).st.pulseLengthStable 0 = (critEnter sch r).st.pulseLength 0 := by
    have e : (critCopy0 sch r).st.pulseLengthStable =
        arrSet ((critEnter sch r).env (sch 2)).st.pulseLengthStable 0
          (((critEnter sch r).env (sch 2)).st.pulseLength 0) := rfl
    rw [e, m.2.1]
    simp [arrSet]
  rw [e1, e2]
  fin_cases i
  · simpa [arrSet] using e3
  · simp [arrSet]

/-- C17: in every interleaving of `pulseRead` with pin changes (the interrupt
routine running only while `GIE` is set), when the liveness flag is set at the
test, both stabilized widths that `pulseRead` leaves are the raw widths of one
and the same instant, the one right after `GIE = 0`: the raw widths do not
change from then until `GIE = 1` is executed, no interrupt-on-change invocation
occurs in the gaps before, between and after the two copies, and `GIE` is set
again right after the copy. -/
theorem snapshot_atomic (sch : Nat → List PinChange) (s : State)
    (h : (windowRun sch s).st.signalAlive ≠ 0) :
    (∀ i : Fin PULSE_N, (pulseRead_traced sch s).st.pulseLengthStable i =
      (critEnter sch (windowRun sch s)).st.pulseLength i) ∧
    (critEnter sch (windowRun sch s)).st.GIE = false ∧
    ((critEnter sch (windowRun sch s)).env (sch 2)).st.pulseLength =
      (critEnter sch (windowRun sch s)).st.pulseLength ∧
    ((critCopy0 sch (windowRun sch s)).env (sch 3)).st.pulseLength =
      (critEnter sch (windowRun sch s)).st.pulseLength ∧
    ((critCopy1 sch (windowRun sch s)).env (sch 4)).st.pulseLength =
      (critEnter sch (windowRun sch s)).st.pulseLength ∧
    irqCount (sch 2) (critEnter sch (windowRun sch s)).st = 0 ∧
    irqCount (sch 3) (critCopy0 sch (windowRun sch s)).st = 0 ∧
    irqCount (sch 4) (critCopy1 sch (windowRun sch s)).st = 0 ∧
    traced_snapshot sch (windowRun sch s) = critLeave sch (windowRun sch s) ∧
    (critLeave sch (windowRun sch s)).st.GIE = true := by
  have m := crit_masked sch (windowRun sch s)
  have ha := traced_snapshot_alive sch (windowRun sch s) h
  refine ⟨?_, rfl, m.2.1, m.2.2.2.1, m.2.2.2.2.2.1, m.2.2.2.2.2.2.1, m.2.2.2.2.2.2.2.1,
    m.2.2.2.2.2.2.2.2, ha, ?_⟩
  · intro i
    have e : pulseRead_traced sch s = traced_convert sch (traced_snapshot sch (windowRun sch s)) :=
      rfl
    rw [e, traced_convert_stable, ha, critLeave_stable]
  · show (serve _).GIE = true
    rw [(serve_keeps _).2]

theorem snapshot_atomic_witness :
    (windowRun busySchedule State.boot).st.signalAlive ≠ 0 ∧
    (pulseRead_traced busySchedule State.boot).st.pulseLengthStable 0 = 1500 ∧
    (pulseRead_traced busySchedule State.boot).st.pulseLengthStable 1 = 0 ∧
    (critEnter busySchedule (windowRun busySchedule State.boot)).st.pulseLength 0 = 1500 ∧
    (critEnter busySchedule (windowRun busySchedule State.boot)).st.pulseLength 1 = 0 ∧
    (critLeave busySchedule (windowRun busySchedule State.boot)).st.pulseLength 0 = 300 :=
  have h := (snapshot_atomic busySchedule State.boot (by decide)).1
  have a : (critEnter busySchedule (windowRun busySchedule State.boot)).st.pulseLength 0 = 1500 :=
    by decide
  have b : (critEnter busySchedule (windowRun busySchedule State.boot)).st.pulseLength 1 = 0 :=
    by decide
  ⟨by decide, (h 0).trans a, (h 1).trans b, a, b, by decide⟩


theorem isr_clears (s : State) (h : s.IOCIF = true) :
    (interrupt_routine s).IOCIF = false ∧ (interrupt_routine s).signalAlive = 1 := by
  unfold interrupt_routine
  cases h5 : s.IOCAP5 <;> cases h5f : s.IOCAF5 <;> cases h4f : s.IOCAF4 <;>
    cases h4 : s.IOCAP4 <;> simp [h]

theorem pinChange_served (e : PinChange) (s : State)
    (h : s.signalAlive ≠ 0 → (s.GIE = true ∧ s.IOCIE = true ∧ s.IOCIF = false)) :
    (pinChange e s).signalAlive ≠ 0 →
      ((pinChange e s).GIE = true ∧ (pinChange e s).IOCIE = true ∧
        (pinChange e s).IOCIF = false) := by
  unfold pinChange
  simp only []
  split_ifs with hc
  · intro _
    simp only [Bool.and_eq_true] at hc
    have k := isr_keeps_main_data { s with
      TMR1 := e.tick % 65536,
      IOCAF5 := s.IOCAF5 || e.ra5,
      IOCAF4 := s.IOCAF4 || e.ra4,
      IOCIF := s.IOCIF || e.ra5 || e.ra4 }
    exact ⟨k.2.2.2.1.trans hc.1.1, k.2.2.2.2.1.trans hc.1.2, (isr_clears _ hc.2).1⟩
  · intro hs
    obtain ⟨g, ie, f⟩ := h hs
    simp only [g, ie, f, Bool.true_and, Bool.false_or] at hc
    exact ⟨g, ie, by simpa [f] using hc⟩

theorem delay_ms_served (evs : List PinChange) :
    ∀ s : State, (s.signalAlive ≠ 0 → (s.GIE = true ∧ s.IOCIE = true ∧ s.IOCIF = false)) →
      (delay_ms evs s).signalAlive ≠ 0 →
        ((delay_ms evs s).GIE = true ∧ (delay_ms evs s).IOCIE = true ∧
          (delay_ms evs s).IOCIF = false) := by
  induction evs with
  | nil => intro s h; exact h
  | cons e es ih =>
    intro s h
    rw [delay_ms_cons]
    exact ih _ (pinChange_served e s h)

/-- With all pin changes falling into the 40 ms wait, the interleaved run ends
in the state computed by `pulseRead`. -/
theorem pulseRead_traced_windowOnly (evs : List PinChange) (s : State) :
    (pulseRead_traced (windowOnly evs) s).st = pulseRead evs s := by
  have e : pulseRead_traced (windowOnly evs) s =
      traced_convert (windowOnly evs) (traced_snapshot (windowOnly evs)
        (windowRun (windowOnly evs) s)) := rfl
  have w : (windowRun (windowOnly evs) s).st = delay_ms evs (pulseRead_clear s) := rfl
  have hc : (traced_convert (windowOnly evs) (traced_snapshot (windowOnly evs)
      (windowRun (windowOnly evs) s))).st =
      pulseRead_convert (traced_snapshot (windowOnly evs) (windowRun (windowOnly evs) s)).st :=
    rfl
  rw [e, hc]
  unfold pulseRead
  congr 1
  by_cases ha : (delay_ms evs (pulseRead_clear s)).signalAlive ≠ 0
  · have hs := delay_ms_served evs (pulseRead_clear s) (fun h => absurd rfl h) ha
    rw [traced_snapshot_alive _ _ (by rw [w]; exact ha)]
    unfold pulseRead_snapshot
    rw [if_pos ha]
    have hf : ((critCopy1 (windowOnly evs) (windowRun (windowOnly evs) s)).env
        (windowOnly evs 4)).st.IOCIF = false := hs.2.2
    show serve _ = _
    unfold serve
    rw [if_neg (by simp [hf])]
    rfl
  · have ht : ¬ ((stmt_test (windowRun (windowOnly evs) s)).st.signalAlive ≠ 0) := ha
    unfold traced_snapshot pulseRead_snapshot
    simp only [ht, ha, if_false]
    rfl

theorem critLeave_log (sch : Nat → List PinChange) (r : Run) :
    (critLeave sch r).log = r.log ++
      [⟨Var.signalAlive, false, r.st.GIE⟩,
        ⟨Var.pulseLength 0, false, false⟩, ⟨Var.pulseLengthStable 0, true, false⟩,
        ⟨Var.pulseLength 1, false, false⟩, ⟨Var.pulseLengthStable 1, true, false⟩] := by
  have m := crit_masked sch r
  have e : (critLeave sch r).log = (((r.log ++ [⟨Var.signalAlive, false, r.st.GIE⟩]) ++
      [⟨Var.pulseLength 0, false, ((critEnter sch r).env (sch 2)).st.GIE⟩]) ++
      [⟨Var.pulseLengthStable 0, true, ((critEnter sch r).env (sch 2)).st.GIE⟩] ++
      [⟨Var.pulseLength 1, false, ((critCopy0 sch r).env (sch 3)).st.GIE⟩]) ++
      [⟨Var.pulseLengthStable 1, true, ((critCopy0 sch r).env (sch 3)).st.GIE⟩] := rfl
  rw [e, m.1, m.2.2.1]
  simp

theorem lost_log (sch : Nat → List PinChange) (r : Run) (h : ¬ r.st.signalAlive ≠ 0) :
    (traced_snapshot sch r).log = r.log ++
      [⟨Var.signalAlive, false, r.st.GIE⟩,
        ⟨Var.pulseLengthStable 0, true, r.st.GIE⟩, ⟨Var.pulseLengthStable 1, true, r.st.GIE⟩] ∧
    (traced_snapshot sch r).st.GIE = r.st.GIE := by
  have ht : ¬ ((stmt_test r).st.signalAlive ≠ 0) := h
  unfold traced_snapshot
  simp only [ht, if_false]
  rw [forLoop_two]
  have g1 : (delay_ms (sch (1 + (0 : Fin PULSE_N).val)) (stmt_test r).st).GIE = r.st.GIE :=
    (delay_ms_keeps _ _).2
  have g2 : (delay_ms (sch (1 + (1 : Fin PULSE_N).val))
      (stmt_centre 0 ((stmt_test r).env (sch (1 + (0 : Fin PULSE_N).val)))).st).GIE = r.st.GIE :=
    ((delay_ms_keeps _ _).2).trans g1
  have e : (stmt_centre 1 ((stmt_centre 0 ((stmt_test r).env
      (sch (1 + (0 : Fin PULSE_N).val)))).env (sch (1 + (1 : Fin PULSE_N).val)))).log =
      ((r.log ++ [⟨Var.signalAlive, false, r.st.GIE⟩]) ++
      [⟨Var.pulseLengthStable 0, true,
        (delay_ms (sch (1 + (0 : Fin PULSE_N).val)) (stmt_test r).st).GIE⟩]) ++
      [⟨Var.pulseLengthStable 1, true, (delay_ms (sch (1 + (1 : Fin PULSE_N).val))
        (stmt_centre 0 ((stmt_test r).env (sch (1 + (0 : Fin PULSE_N).val)))).st).GIE⟩] := rfl
  refine ⟨?_, g2⟩
  rw [e, g1, g2]
  simp

theorem convert_log (sch : Nat → List PinChange) (r : Run) :
    (traced_convert sch r).log = r.log ++
      [⟨Var.pulseLengthStable 0, false, r.st.GIE⟩, ⟨Var.pulseLengthStable 1, false, r.st.GIE⟩] := by
  unfold traced_convert
  rw [forLoop_two]
  have g1 : (delay_ms (sch (5 + (0 : Fin PULSE_N).val)) r.st).GIE = r.st.GIE :=
    (delay_ms_keeps _ _).2
  have g2 : (delay_ms (sch (5 + (1 : Fin PULSE_N).val))
      (stmt_percent 0 (r.env (sch (5 + (0 : Fin PULSE_N).val)))).st).GIE = r.st.GIE :=
    ((delay_ms_keeps _ _).2).trans g1
  have e : (stmt_percent 1 ((stmt_percent 0 (r.env (sch (5 + (0 : Fin PULSE_N).val)))).env
      (sch (5 + (1 : Fin PULSE_N).val)))).log =
      (r.log ++ [⟨Var.pulseLengthStable 0, false,
        (delay_ms (sch (5 + (0 : Fin PULSE_N).val)) r.st).GIE⟩]) ++
      [⟨Var.pulseLengthStable 1, false, (delay_ms (sch (5 + (1 : Fin PULSE_N).val))
        (stmt_percent 0 (r.env (sch (5 + (0 : Fin PULSE_N).val)))).st).GIE⟩] := rfl
  rw [e, g1, g2]
  simp

theorem windowRun_facts (sch : Nat → List PinChange) (s : State) :
    (windowRun sch s).log = [⟨Var.signalAlive, true, s.GIE⟩] ∧
    (windowRun sch s).st.GIE = s.GIE :=
  ⟨rfl, (delay_ms_keeps _ _).2⟩

/-- The complete access log of an interleaved run of `pulseRead`. -/
theorem pulseRead_traced_log (sch : Nat → List PinChange) (s : State) :
    (pulseRead_traced sch s).log =
      if (windowRun sch s).st.signalAlive ≠ 0 then
        [⟨Var.signalAlive, true, s.GIE⟩, ⟨Var.signalAlive, false, s.GIE⟩,
          ⟨Var.pulseLength 0, false, false⟩, ⟨Var.pulseLengthStable 0, true, false⟩,
          ⟨Var.pulseLength 1, false, false⟩, ⟨Var.pulseLengthStable 1, true, false⟩,
          ⟨Var.pulseLengthStable 0, false, true⟩, ⟨Var.pulseLengthStable 1, false, true⟩]
      else
        [⟨Var.signalAlive, true, s.GIE⟩, ⟨Var.signalAlive, false, s.GIE⟩,
          ⟨Var.pulseLengthStable 0, true, s.GIE⟩, ⟨Var.pulseLengthStable 1, true, s.GIE⟩,
          ⟨Var.pulseLengthStable 0, false, s.GIE⟩, ⟨Var.pulseLengthStable 1, false, s.GIE⟩] := by
  have e : pulseRead_traced sch s = traced_convert sch (traced_snapshot sch (windowRun sch s)) :=
    rfl
  have w := windowRun_facts sch s
  rw [e, convert_log]
  split_ifs with h
  · rw [traced_snapshot_alive sch _ h, critLeave_log, w.1, w.2]
    have g : (critLeave sch (windowRun sch s)).st.GIE = true := by
      show (serve _).GIE = true
      rw [(serve_keeps _).2]
    rw [g]
    simp
  · have l := lost_log sch (windowRun sch s) h
    rw [l.1, l.2, w.1, w.2]
    simp

/-! ## Interrupt exclusion around the accesses of the main code -/

/-- C18, as the code behaves: in the signal-alive branch every write of a
stabilized width by `pulseRead` is made with `GIE = 0`; in the signal-lost
branch `pulseRead` does not touch `GIE`, so 1500 is written with `GIE` as it
was when `pulseRead` was entered. -/
theorem stable_write_gie (sch : Nat → List PinChange) (s : State) (a : Access)
    (i : Fin PULSE_N) (ha : a ∈ (pulseRead_traced sch s).log)
    (hv : a.var = Var.pulseLengthStable i) (hw : a.isWrite = true) :
    a.gie = (if (windowRun sch s).st.signalAlive ≠ 0 then false else s.GIE) := by
  rw [pulseRead_traced_log] at ha
  split_ifs at ha ⊢ with h
  all_goals
    simp only [List.mem_cons, List.mem_singleton, List.not_mem_nil, or_false] at ha
    rcases ha with rfl | rfl | rfl | rfl | rfl | rfl | rfl | rfl <;> simp_all

theorem stable_write_gie_witness :
    (⟨Var.pulseLengthStable 0, true, false⟩ : Access) ∈
      (pulseRead_traced busySchedule State.boot).log ∧
    (false = if (windowRun busySchedule State.boot).st.signalAlive ≠ 0 then false
      else State.boot.GIE) :=
  ⟨by decide,
    stable_write_gie busySchedule State.boot ⟨Var.pulseLengthStable 0, true, false⟩ 0
      (by decide) rfl rfl⟩

/-- C18 as stated fails: entered with `GIE = 1` and no pin change during the
wait, `pulseRead` writes `pulseLengthStable[0] = 1500` while `GIE` is still 1. -/
theorem stable_write_counterexample :
    State.boot.GIE = true ∧
    (windowRun (windowOnly []) State.boot).st.signalAlive = 0 ∧
    (⟨Var.pulseLengthStable 0, true, true⟩ : Access) ∈
      (pulseRead_traced (windowOnly []) State.boot).log ∧
    ¬ (∀ (sch : Nat → List PinChange) (s : State) (a : Access) (i : Fin PULSE_N),
        a ∈ (pulseRead_traced sch s).log → a.var = Var.pulseLengthStable i →
        a.isWrite = true → a.gie = false) := by
  refine ⟨rfl, rfl, by decide, ?_⟩
  intro h
  have k := h (windowOnly []) State.boot ⟨Var.pulseLengthStable 0, true, true⟩ 0 (by decide)
    rfl rfl
  exact absurd k (by decide)

/-- C19, evaluation of the code: entered with `GIE = 1`, as `main` calls it,
`pulseRead` writes `signalAlive` (line 72) and reads it (line 75) while
interrupts are enabled. Only the reads of `pulseLength` are made with
`GIE = 0`; `pulseStart` and `pulseOn` are not accessed. -/
theorem signalAlive_access_enabled :
    (∀ s0 : State, (main_init s0).GIE = true) ∧
    (⟨Var.signalAlive, true, true⟩ : Access) ∈ (pulseRead_traced busySchedule State.boot).log ∧
    (⟨Var.signalAlive, false, true⟩ : Access) ∈ (pulseRead_traced busySchedule State.boot).log ∧
    (∀ (sch : Nat → List PinChange) (s : State),
      (⟨Var.signalAlive, true, s.GIE⟩ : Access) ∈ (pulseRead_traced sch s).log ∧
      (⟨Var.signalAlive, false, s.GIE⟩ : Access) ∈ (pulseRead_traced sch s).log) ∧
    (∀ (sch : Nat → List PinChange) (s : State) (a : Access),
      a ∈ (pulseRead_traced sch s).log →
        (∀ i, a.var = Var.pulseLength i → a.gie = false) ∧
        (∀ i, a.var ≠ Var.pulseStart i) ∧ (∀ i, a.var ≠ Var.pulseOn i)) := by
  refine ⟨fun s0 => rfl, by decide, by decide, ?_, ?_⟩
  · intro sch s
    rw [pulseRead_traced_log]
    split_ifs <;> simp
  · intro sch s a ha
    rw [pulseRead_traced_log] at ha
    split_ifs at ha
    all_goals
      simp only [List.mem_cons, List.mem_singleton, List.not_mem_nil, or_false] at ha
      rcases ha with rfl | rfl | rfl | rfl | rfl | rfl | rfl | rfl <;> simp


/-! ## Ranges of the values of one control cycle -/

theorem percentOfWidth_range (w : Nat) : -100 ≤ percentOfWidth w ∧ percentOfWidth w ≤ 100 := by
  by_cases h : 900 < w ∧ w < 2100
  · rw [percentOfWidth_valid w h.1 h.2]
    omega
  · unfold percentOfWidth
    rw [if_neg h]
    omega

theorem mixer_bounds (s : State)
    (hp : -100 ≤ s.pulsePercent 0 ∧ s.pulsePercent 0 ≤ 100)
    (hr : -100 ≤ s.pulsePercent 1 ∧ s.pulsePercent 1 ≤ 100) (j : Fin 4) :
    0 ≤ (mixer s).motorDuty j ∧ (mixer s).motorDuty j ≤ 200 ∧
    (s.RC4 = true → (mixer s).motorDuty j ≤ 100) := by
  obtain ⟨hp1, hp2⟩ := hp
  obtain ⟨hr1, hr2⟩ := hr
  unfold mixer
  rw [zero_loop]
  cases hc : s.RC4 <;> simp only [Bool.false_eq_true, if_false, if_true] <;>
    by_cases h0 : s.pulsePercent 0 ≥ 0 <;> by_cases h1 : s.pulsePercent 1 ≥ 0 <;>
    simp only [h0, h1, if_true, if_false, arrSet, toI16] <;>
    fin_cases j <;> simp <;> omega

theorem isr_keeps_config (s : State) :
    (interrupt_routine s).PR2 = s.PR2 ∧ (interrupt_routine s).RC4 = s.RC4 := by
  unfold interrupt_routine
  cases hif : s.IOCIF <;> cases h5 : s.IOCAP5 <;> cases h5f : s.IOCAF5 <;>
    cases h4f : s.IOCAF4 <;> cases h4 : s.IOCAP4 <;> simp

theorem delay_ms_config (evs : List PinChange) :
    ∀ s : State, (delay_ms evs s).PR2 = s.PR2 ∧ (delay_ms evs s).RC4 = s.RC4 := by
  induction evs with
  | nil => intro s; exact ⟨rfl, rfl⟩
  | cons e es ih =>
    intro s
    rw [delay_ms_cons]
    have k : (pinChange e s).PR2 = s.PR2 ∧ (pinChange e s).RC4 = s.RC4 := by
      unfold pinChange
      simp only []
      split_ifs
      · exact isr_keeps_config _
      · exact ⟨rfl, rfl⟩
    exact ⟨(ih _).1.trans k.1, (ih _).2.trans k.2⟩

theorem pulseRead_config (evs : List PinChange) (s : State) :
    (pulseRead evs s).PR2 = s.PR2 ∧ (pulseRead evs s).RC4 = s.RC4 := by
  have d := delay_ms_config evs (pulseRead_clear s)
  have a : ∀ t : State, (pulseRead_convert t).PR2 = t.PR2 ∧ (pulseRead_convert t).RC4 = t.RC4 :=
    fun t => ⟨rfl, rfl⟩
  have b : ∀ t : State, (pulseRead_snapshot t).PR2 = t.PR2 ∧
      (pulseRead_snapshot t).RC4 = t.RC4 := by
    intro t
    unfold pulseRead_snapshot
    split_ifs <;> exact ⟨rfl, rfl⟩
  unfold pulseRead
  exact ⟨(a _).1.trans ((b _).1.trans d.1), (a _).2.trans ((b _).2.trans d.2)⟩

theorem mixer_config (s : State) : (mixer s).PR2 = s.PR2 := by
  unfold mixer
  rw [zero_loop]
  cases s.RC4 <;> simp only [Bool.false_eq_true, if_false, if_true] <;> split_ifs <;> rfl

theorem motorsApplyDuty_config (s : State) : (motorsApplyDuty s).PR2 = s.PR2 := by
  unfold motorsApplyDuty motorsApplyDuty_clamp
  rw [forLoop_four]
  simp only [motorsApplyDuty_body_eq]

theorem register_range (p : Int) (h0 : 0 ≤ p) (h1 : p ≤ 100) (h5 : p = 0 ∨ 5 ≤ p) :
    (toU8 (PERCENT2CCPRxL p) = 0 ∨
      (8 ≤ toU8 (PERCENT2CCPRxL p) ∧ toU8 (PERCENT2CCPRxL p) ≤ 160)) := by
  have h := toU8_PERCENT2CCPRxL p h0 h1
  omega

/-- C20: in one control cycle, for any stabilized widths and either frame
configuration, every machine operation stays inside the 16-bit signed range:
for a valid width the subtraction read as an `int` is `w - 1000`, in
`[-99, 1099]`, and the percent is the exact value
`(clamp(w,1000,2000) - 1000 + 2) div 5 - 100`; percents are in `[-100, 100]` and
their negations are exact; every mixer output is in `[0, 200]`, and at most 100
in "+" configuration, where `PUT_IN_RANGE` changes nothing; for a committed
percent `percent * 16 + 5` is in `[5, 1605]` and the macro result is the exact
quotient; every duty register receives 0 or a value in `[8, 160]`, below 256
and at most `PR2 + 1 = 160`. -/
theorem cycle_in_range (evs : List PinChange) (s : State) (hPR2 : s.PR2 = 159) :
    (∀ i : Fin PULSE_N, 900 < (pulseRead evs s).pulseLengthStable i →
      (pulseRead evs s).pulseLengthStable i < 2100 →
      toI16 (toU16 (((pulseRead evs s).pulseLengthStable i : Int) - 1000)) =
        ((pulseRead evs s).pulseLengthStable i : Int) - 1000 ∧
      -99 ≤ toI16 (toU16 (((pulseRead evs s).pulseLengthStable i : Int) - 1000)) ∧
      toI16 (toU16 (((pulseRead evs s).pulseLengthStable i : Int) - 1000)) ≤ 1099 ∧
      (pulseRead evs s).pulsePercent i =
        (max (min ((pulseRead evs s).pulseLengthStable i : Int) 2000) 1000 - 1000 + 2) / 5
          - 100) ∧
    (∀ i : Fin PULSE_N, -100 ≤ (pulseRead evs s).pulsePercent i ∧
      (pulseRead evs s).pulsePercent i ≤ 100 ∧
      toI16 (-(pulseRead evs s).pulsePercent i) = -(pulseRead evs s).pulsePercent i) ∧
    (∀ j : Fin 4, 0 ≤ (mixer (pulseRead evs s)).motorDuty j ∧
      (mixer (pulseRead evs s)).motorDuty j ≤ 200) ∧
    (s.RC4 = true → ∀ j : Fin 4, (mixer (pulseRead evs s)).motorDuty j ≤ 100 ∧
      PUT_IN_RANGE ((mixer (pulseRead evs s)).motorDuty j) 0 100 =
        (mixer (pulseRead evs s)).motorDuty j) ∧
    (∀ j : Fin 4, 5 ≤ (mainCycle evs s).motorDuty j * 16 + 5 ∧
      (mainCycle evs s).motorDuty j * 16 + 5 ≤ 1605 ∧
      PERCENT2CCPRxL ((mainCycle evs s).motorDuty j) =
        ((mainCycle evs s).motorDuty j * 16 + 5) / 10) ∧
    (((mainCycle evs s).CCPR1L = 0 ∨ (8 ≤ (mainCycle evs s).CCPR1L ∧ (mainCycle evs s).CCPR1L ≤ 160)) ∧
      (mainCycle evs s).CCPR1L < 256 ∧ (mainCycle evs s).CCPR1L ≤ (mainCycle evs s).PR2 + 1) ∧
    (((mainCycle evs s).CCPR2L = 0 ∨ (8 ≤ (mainCycle evs s).CCPR2L ∧ (mainCycle evs s).CCPR2L ≤ 160)) ∧
      (mainCycle evs s).CCPR2L < 256 ∧ (mainCycle evs s).CCPR2L ≤ (mainCycle evs s).PR2 + 1) ∧
    (((mainCycle evs s).CCPR3L = 0 ∨ (8 ≤ (mainCycle evs s).CCPR3L ∧ (mainCycle evs s).CCPR3L ≤ 160)) ∧
      (mainCycle evs s).CCPR3L < 256 ∧ (mainCycle evs s).CCPR3L ≤ (mainCycle evs s).PR2 + 1) ∧
    (((mainCycle evs s).CCPR4L = 0 ∨ (8 ≤ (mainCycle evs s).CCPR4L ∧ (mainCycle evs s).CCPR4L ≤ 160)) ∧
      (mainCycle evs s).CCPR4L < 256 ∧ (mainCycle evs s).CCPR4L ≤ (mainCycle evs s).PR2 + 1) ∧
    (mainCycle evs s).PR2 + 1 = 160 := by
  have hpc : ∀ i : Fin PULSE_N, -100 ≤ (pulseRead evs s).pulsePercent i ∧
      (pulseRead evs s).pulsePercent i ≤ 100 := by
    intro i
    rw [percent_after_pulseRead]
    exact percentOfWidth_range _
  have hmb := mixer_bounds (pulseRead evs s) (hpc 0) (hpc 1)
  have hcr : ∀ j : Fin 4, 0 ≤ (mainCycle evs s).motorDuty j ∧
      (mainCycle evs s).motorDuty j ≤ 100 ∧
      ((mainCycle evs s).motorDuty j = 0 ∨ 5 ≤ (mainCycle evs s).motorDuty j) :=
    fun j => committed_range (mixer (pulseRead evs s)) j
  have hpr : (mainCycle evs s).PR2 = 159 := by
    unfold mainCycle
    rw [motorsApplyDuty_config, mixer_config, (pulseRead_config evs s).1, hPR2]
  have hreg : ∀ j : Fin 4,
      (toU8 (PERCENT2CCPRxL ((mainCycle evs s).motorDuty j)) = 0 ∨
        (8 ≤ toU8 (PERCENT2CCPRxL ((mainCycle evs s).motorDuty j)) ∧
          toU8 (PERCENT2CCPRxL ((mainCycle evs s).motorDuty j)) ≤ 160)) ∧
      toU8 (PERCENT2CCPRxL ((mainCycle evs s).motorDuty j)) < 256 ∧
      toU8 (PERCENT2CCPRxL ((mainCycle evs s).motorDuty j)) ≤ (mainCycle evs s).PR2 + 1 := by
    intro j
    have k := register_range _ (hcr j).1 (hcr j).2.1 (hcr j).2.2
    rw [hpr]
    omega
  refine ⟨?_, ?_, fun j => ⟨(hmb j).1, (hmb j).2.1⟩, ?_, ?_, hreg 0, hreg 1, hreg 2, hreg 3,
    by rw [hpr]⟩
  · intro i h1 h2
    have e := sub1000_eq _ h1 h2
    refine ⟨e, ?_, ?_, ?_⟩
    · rw [e]; omega
    · rw [e]; omega
    · rw [percent_after_pulseRead, percentOfWidth_valid _ h1 h2]
  · intro i
    exact ⟨(hpc i).1, (hpc i).2, toI16_eq_self (by have := hpc i; omega) (by have := hpc i; omega)⟩
  · intro hc j
    have hc2 : (pulseRead evs s).RC4 = true := (pulseRead_config evs s).2.trans hc
    have hle := (hmb j).2.2 hc2
    refine ⟨hle, ?_⟩
    rw [PUT_IN_RANGE_percent]
    have h0 := (hmb j).1
    split_ifs <;> omega
  · intro j
    have k := hcr j
    refine ⟨by omega, by omega, ?_⟩
    rw [PERCENT2CCPRxL_exact _ k.1 k.2.1]
    congr 1
    ring

theorem cycle_in_range_witness :
    State.boot.PR2 = 159 ∧
    (pulseRead windowEdge State.boot).pulseLengthStable 0 = 903 ∧
    (pulseRead windowEdge State.boot).pulsePercent 0 = -100 ∧
    (mixer (pulseRead windowEdge State.boot)).motorDuty 0 ≤ 200 ∧
    ((mainCycle windowEdge State.boot).CCPR1L = 0 ∨
      (8 ≤ (mainCycle windowEdge State.boot).CCPR1L ∧
        (mainCycle windowEdge State.boot).CCPR1L ≤ 160)) ∧
    (mainCycle windowEdge State.boot).PR2 + 1 = 160 :=
  have h := cycle_in_range windowEdge State.boot rfl
  ⟨rfl, by decide, by decide, (h.2.2.1 0).2, h.2.2.2.2.2.1.1, h.2.2.2.2.2.2.2.2.2⟩

end QuadHybrid
